import Mathlib

/-!
# Verification of the astrality action-execution engine and context store

Shallow embedding of `astrality/actions.py` (the typed action hierarchy,
the Stow composite, and `ActionBlock`) together with the Context Store that
actions read and mutate.  The Context Store (`astrality/context.py`) and the
path resolver (`astrality.utils.resolve_targets`) are not part of the
provided sources, only their tests and callers are; those two components are
modelled from the specification, as marked in their doc comments.

External collaborators (the regex engine, the template-rendering engine,
environment-variable expansion, subprocess execution and config-file
loading) are abstracted into an `Ext` record of functions, mirroring the
spec, which treats them as out of scope.  Filesystem state, the context
store and a temporary-file counter form a `World`; side effects are
recorded as an explicit list of `Event`s, so that "performs no I/O" is
expressible as "the world is unchanged and no event is emitted".
-/

set_option autoImplicit false

/-! ## Context store keys and errors -/

/-- A context-store key: Python dict keys restricted to the two kinds the
spec discusses, integers and strings. -/
inductive CKey where
  | int (i : Int)
  | str (s : String)
deriving DecidableEq, Repr

/-- Key-lookup failures of the context store.  `keyError k` models a plain
`KeyError(k)`; `noLowerIndex i` models the distinguishable
`KeyError` carrying the "no lower index" message raised when integer
fallback resolution exhausts. -/
inductive CtxErr where
  | keyError (k : CKey)
  | noLowerIndex (i : Int)
deriving DecidableEq, Repr

/-- Modelled from the spec: `astrality.context.Context` is not among the
provided sources (only `tests/test_context.py` is).  A Context Store is an
insertion-ordered mapping from keys to values; this models its entry list.
Lookup of a present key returns the first stored value for it. -/
structure Context (α : Type) where
  entries : List (CKey × α)
deriving DecidableEq, Repr

namespace Context

variable {α : Type}

/-- Plain-mapping lookup over the entry list (the behaviour of the built-in
dict lookup the Context Store defers to for present keys). -/
def rawLookupL : List (CKey × α) → CKey → Option α
  | [], _ => none
  | (k, v) :: t, q => if k = q then some v else rawLookupL t q

/-- Plain-mapping lookup on a context store. -/
def rawLookup (c : Context α) (k : CKey) : Option α :=
  rawLookupL c.entries k

/-- Key assignment: overwrite in place when the key is present, append
otherwise (Python dict insertion-order semantics). -/
def setitemL : List (CKey × α) → CKey → α → List (CKey × α)
  | [], k, v => [(k, v)]
  | (k2, v2) :: t, k, v =>
    if k2 = k then (k2, v) :: t else (k2, v2) :: setitemL t k v

/-- `store[k] = v`. -/
def setitem (c : Context α) (k : CKey) (v : α) : Context α :=
  ⟨setitemL c.entries k v⟩

/-- `store.update(other)`: merge entries in, overwriting on collision and
preserving insertion order for keys not previously present. -/
def update (c : Context α) (l : List (CKey × α)) : Context α :=
  l.foldl (fun acc kv => acc.setitem kv.1 kv.2) c

/-- `store.get(key, default)`: returns the stored value or the default,
never raising. -/
def get (c : Context α) (k : CKey) (default : Option α := none) : Option α :=
  match c.rawLookup k with
  | some v => some v
  | none => default

/-- The integer keys strictly below `k` occurring in the store. -/
def intKeysBelow (c : Context α) (k : Int) : List Int :=
  c.entries.filterMap fun e =>
    match e.1 with
    | CKey.int j => if j < k then some j else none
    | CKey.str _ => none

/-- Maximum of a list of integers, `none` on the empty list. -/
def listMax : List Int → Option Int
  | [] => none
  | x :: xs =>
    match listMax xs with
    | none => some x
    | some m => some (max x m)

/-- Modelled from the spec: indexed access `store[k]`.  A present key
returns its value.  An absent integer key falls back to the largest integer
key strictly below it that is present; if none exists the lookup fails with
the "no lower index" error.  An absent string key never falls back and
raises a plain key error. -/
def getitem (c : Context α) (k : CKey) : Except CtxErr α :=
  match c.rawLookup k with
  | some v => Except.ok v
  | none =>
    match k with
    | CKey.str s => Except.error (CtxErr.keyError (CKey.str s))
    | CKey.int i =>
      match listMax (c.intKeysBelow i) with
      | none => Except.error (CtxErr.noLowerIndex i)
      | some j =>
        match c.rawLookup (CKey.int j) with
        | some v => Except.ok v
        | none => Except.error (CtxErr.noLowerIndex i)

/-- Indexed access of a plain (non-fallback) mapping over the same entries:
present keys return their value, absent keys raise `KeyError(key)`. -/
def plainGetitem (c : Context α) (k : CKey) : Except CtxErr α :=
  match c.rawLookup k with
  | some v => Except.ok v
  | none => Except.error (CtxErr.keyError k)

end Context

/-! ## Paths and the filesystem -/

/-- A filesystem path: a flag telling whether it is absolute plus its
components.  `⟨true, ["a", "b"]⟩` models `/a/b`; `⟨false, ["a"]⟩` models
the relative path `a`. -/
structure FPath where
  abs : Bool
  comps : List String
deriving DecidableEq, Repr

/-- A filesystem node: a regular file with text contents, a directory, or a
symbolic link. -/
inductive FNode where
  | file (text : String)
  | dir
  | link (dest : FPath)
deriving DecidableEq, Repr

/-- The filesystem: a finite association of paths to nodes (first match
wins). -/
abbrev FS := List (FPath × FNode)

/-- Look a path up in the filesystem. -/
def lookupFS : FS → FPath → Option FNode
  | [], _ => none
  | (q, n) :: t, p => if q = p then some n else lookupFS t p

/-- Remove a path from the filesystem. -/
def eraseNode : FS → FPath → FS
  | [], _ => []
  | (q, n) :: t, p => if q = p then eraseNode t p else (q, n) :: eraseNode t p

/-- Create or overwrite the node at a path. -/
def setNode (fs : FS) (p : FPath) (n : FNode) : FS :=
  (p, n) :: eraseNode fs p

/-- The strict ancestors of a path, root included. -/
def ancestors (t : FPath) : List FPath :=
  (List.range t.comps.length).map fun k => FPath.mk t.abs (t.comps.take k)

/-- `copy.parent.mkdir(parents=True, exist_ok=True)` as used by the copy
loop: create every missing ancestor directory.  This non-raising form
keeps only the success path (no claim exercises the copy loop error
paths); the symlink loop uses the raising `mkdirChain` below. -/
def mkParents (fs : FS) (t : FPath) : FS :=
  (ancestors t).foldl
    (fun acc a => match lookupFS acc a with
      | none => setNode acc a FNode.dir
      | some _ => acc)
    fs

/-- `target.parent / (target.name + ".bak")`: the backup path a symlink
target is renamed to. -/
def bakPath (t : FPath) : FPath :=
  ⟨t.abs, t.comps.dropLast ++ [t.comps.getLastD "" ++ ".bak"]⟩

/-- Split a character list on slashes (structural stand-in for Python
string splitting, so that the kernel can evaluate witnesses). -/
def splitSlashAux : List Char → List Char → List String
  | [], acc => [String.mk acc.reverse]
  | c :: rest, acc =>
    if c = '/' then String.mk acc.reverse :: splitSlashAux rest []
    else splitSlashAux rest (c :: acc)

/-- `pre` is a prefix of `s`. -/
def strStarts (s pre : String) : Bool :=
  pre.data.isPrefixOf s.data

/-- `str.lower()`. -/
def strLower (s : String) : String :=
  String.mk (s.data.map Char.toLower)

/-- `str[n:]`. -/
def strDrop (s : String) (n : Nat) : String :=
  String.mk (s.data.drop n)

/-- Parse a string path; a leading slash makes it absolute. -/
def strToFPath (s : String) : FPath :=
  ⟨strStarts s "/", (splitSlashAux s.data []).filter fun c => c ≠ ""⟩

/-- Render a path back to a string. -/
def fpathToStr (p : FPath) : String :=
  (if p.abs then "/" else "") ++ String.intercalate "/" p.comps

/-- Modelled from the spec: `astrality.config.expand_path` is not among the
provided sources.  A relative path is anchored at the configuration
directory, an absolute path is returned unchanged. -/
def expand_path (config_directory : FPath) (p : FPath) : FPath :=
  if p.abs then p else ⟨config_directory.abs, config_directory.comps ++ p.comps⟩

/-! ## Side effects, external collaborators and the world -/

/-- Observable side effects of action execution.  Log records model calls
to the logger; the file events record which sub-operation produced a
filesystem change. -/
inductive Event where
  | errorLogged (msg : String)
  | infoLogged (msg : String)
  | importedContext (file : FPath)
  | compiled (content target : FPath)
  | copied (content target : FPath)
  | symlinked (content target : FPath)
  | ran (command : String)
  | createdTempFile (p : FPath)
deriving DecidableEq, Repr

/-- The mutable state shared by all actions: the filesystem, the global
context store, and a counter feeding fresh temporary-file names. -/
structure World where
  fs : FS
  ctx : Context String
  tempCounter : Nat
deriving DecidableEq, Repr

/-- The external collaborators the spec declares out of scope, bundled as
plain functions: the regex engine (`reMatch pattern filename` returns the
text of the first capture group on a match, per the spec default),
environment-variable expansion, the template-rendering engine, config-file
loading for context imports, and the shell. -/
structure Externals where
  reMatch : String → String → Option String
  expandvars : String → String
  render : FPath → String
  loadContext : FPath → Option String → Option String → List (CKey × String)
  shell : String → String
  shellOk : String → Bool

/-- Result of one `execute()` call: the (possibly mutated) action, the new
world, the emitted events, and the returned value. -/
structure Out (A R : Type) where
  action : A
  world : World
  events : List Event
  result : R

/-- Result of one action-block phase: the updated actions, the new world
and the emitted events. -/
structure PhOut (A : Type) where
  actions : List A
  world : World
  events : List Event

/-- Placeholder substitution over option strings (the `replacer` the
enclosing module hands each action). -/
abbrev Replacer := String → String

/-! ## User option dictionaries (the TypedDicts of actions.py) -/

/-- Fields of an `import_context` action. -/
structure ImportContextDict where
  from_path : Option String := none
  from_section : Option String := none
  to_section : Option String := none
deriving DecidableEq, Repr

/-- `not bool(options)`: the dictionary is empty. -/
def ImportContextDict.isEmpty (o : ImportContextDict) : Bool :=
  o.from_path.isNone && o.from_section.isNone && o.to_section.isNone

/-- Fields of a `compile` action. -/
structure CompileDict where
  content : Option String := none
  target : Option String := none
  include_pat : Option String := none
  permissions : Option String := none
deriving DecidableEq, Repr

/-- `not bool(options)`: the dictionary is empty. -/
def CompileDict.isEmpty (o : CompileDict) : Bool :=
  o.content.isNone && o.target.isNone && o.include_pat.isNone &&
    o.permissions.isNone

/-- Fields of a `symlink` action (`permissions` is carried because the Stow
composite places it in the runtime dictionary; SymlinkAction never reads
it). -/
structure SymlinkDict where
  content : Option String := none
  target : Option String := none
  include_pat : Option String := none
  permissions : Option String := none
deriving DecidableEq, Repr

/-- `not bool(options)`: the dictionary is empty. -/
def SymlinkDict.isEmpty (o : SymlinkDict) : Bool :=
  o.content.isNone && o.target.isNone && o.include_pat.isNone &&
    o.permissions.isNone

/-- Fields of a `copy` action. -/
structure CopyDict where
  content : Option String := none
  target : Option String := none
  include_pat : Option String := none
  permissions : Option String := none
deriving DecidableEq, Repr

/-- `not bool(options)`: the dictionary is empty. -/
def CopyDict.isEmpty (o : CopyDict) : Bool :=
  o.content.isNone && o.target.isNone && o.include_pat.isNone &&
    o.permissions.isNone

/-- Fields of a `stow` action. -/
structure StowDict where
  content : Option String := none
  target : Option String := none
  templates : Option String := none
  non_templates : Option String := none
  permissions : Option String := none
deriving DecidableEq, Repr

/-- `not bool(options)`: the dictionary is empty. -/
def StowDict.isEmpty (o : StowDict) : Bool :=
  o.content.isNone && o.target.isNone && o.templates.isNone &&
    o.non_templates.isNone && o.permissions.isNone

/-- Fields of a `run` action. -/
structure RunDict where
  shell : Option String := none
  timeout : Option Nat := none
deriving DecidableEq, Repr

/-- `not bool(options)`: the dictionary is empty. -/
def RunDict.isEmpty (o : RunDict) : Bool :=
  o.shell.isNone && o.timeout.isNone

/-- Fields of a `trigger` action. -/
structure TriggerDict where
  block : Option String := none
  path : Option String := none
deriving DecidableEq, Repr

/-- `not bool(options)`: the dictionary is empty. -/
def TriggerDict.isEmpty (o : TriggerDict) : Bool :=
  o.block.isNone && o.path.isNone

/-! ## Option access helpers (Action.option in actions.py) -/

/-- `Action.option(key, path=True)`: apply the replacer to the raw string
and convert it to an absolute path anchored at the action directory. -/
def optPathOf (rep : Replacer) (dir : FPath) (raw : Option String) :
    Option FPath :=
  match raw with
  | none => none
  | some s => some (expand_path dir (strToFPath (rep s)))

/-- `Action.option(key, default)` for string options: the stored value (or
the default when absent) with placeholders replaced and environment
variables expanded. -/
def optStrOf (ext : Externals) (rep : Replacer) (raw fallback : Option String) :
    Option String :=
  match raw.orElse (fun _ => fallback) with
  | none => none
  | some s => some (ext.expandvars (rep s))

/-! ## Idempotency ledgers and result dictionaries -/

/-- A ledger: mapping from a source file to the target files it produced
(`DefaultDict[Path, Set[Path]]` in the source). -/
abbrev Ledger := List (FPath × List FPath)

/-- `ledger[content].add(target)`. -/
def ledgerAdd : Ledger → FPath → FPath → Ledger
  | [], c, t => [(c, [t])]
  | (c2, ts) :: rest, c, t =>
    if c2 = c then (c2, if t ∈ ts then ts else ts ++ [t]) :: rest
    else (c2, ts) :: ledgerAdd rest c t

/-- `path in ledger`: membership among the ledger keys. -/
def ledgerHasKey (l : Ledger) (p : FPath) : Bool :=
  l.any fun e => e.1 = p

/-- Python `dict.update`: keys already present keep their slot and take the
incoming value; new keys are appended in the incoming order. -/
def dictUpdate {K V : Type} [DecidableEq K] (a b : List (K × V)) :
    List (K × V) :=
  (a.map fun kv =>
    match b.find? (fun kv2 => kv2.1 = kv.1) with
    | some kv2 => (kv.1, kv2.2)
    | none => kv) ++
  b.filter fun kv2 => a.all fun kv => decide (kv.1 ≠ kv2.1)

/-- If `base` is a proper prefix of `p`, the nonempty remainder of `p`
past `base`; otherwise `none`. -/
def remComps : List String → List String → Option (List String)
  | [], rest => if rest = [] then none else some rest
  | _, [] => none
  | b :: bs, x :: xs => if b = x then remComps bs xs else none

/-- Modelled from the spec: `astrality.utils.resolve_targets` is not among
the provided sources (only its callers in actions.py are).  Per spec §4.2:
a single content file pairs directly with the target; a content directory
recursively enumerates its files, keeps those whose filename matches the
include pattern (at least one capture group, default whole filename), and
maps each to the target directory with the sub-directory structure
preserved and the captured text substituted as the new filename; a missing
content path yields an empty result. -/
def resolve_targets (ext : Externals) (fs : FS) (content target : FPath)
    (include_pat : String) : List (FPath × FPath) :=
  match lookupFS fs content with
  | some (FNode.file _) => [(content, target)]
  | some FNode.dir =>
    fs.filterMap fun entry =>
      match entry with
      | (p, FNode.file _) =>
        if p.abs = content.abs then
          match remComps content.comps p.comps with
          | some (r :: rs) =>
            let rest := r :: rs
            match ext.reMatch include_pat (rest.getLastD "") with
            | some captured =>
              some (p, ⟨target.abs, target.comps ++ rest.dropLast ++ [captured]⟩)
            | none => none
          | _ => none
        else none
      | _ => none
  | _ => []

/-! ## Concrete actions -/

/-- `ImportContextAction`: imports context sections into the global
context store (priority 100). -/
structure ImportContextAction where
  null_object : Bool
  options : ImportContextDict
  directory : FPath
  replacer : Replacer

/-- `ImportContextAction.__init__`. -/
def mkImportContextAction (options : ImportContextDict) (directory : FPath)
    (replacer : Replacer) : ImportContextAction :=
  ⟨options.isEmpty, options, directory, replacer⟩

/-- Modelled from the spec: `astrality.config.insert_into` is not among the
provided sources.  It merges a section of another configuration file into
the context store; loading and section selection are delegated to the
external collaborator. -/
def insert_into (ext : Externals) (ctx : Context String) (file : FPath)
    (sec from_sec : Option String) : Context String :=
  ctx.update (ext.loadContext file sec from_sec)

/-- `ImportContextAction.execute()`. -/
def ImportContextAction.execute (ext : Externals) (a : ImportContextAction)
    (w : World) : Out ImportContextAction Unit :=
  if a.null_object then ⟨a, w, [], ()⟩
  else
    match optPathOf a.replacer a.directory a.options.from_path with
    | none =>
      -- a non-null action without `from_path` hands None to the loading
      -- collaborator, which is outside this model
      ⟨a, w, [], ()⟩
    | some p =>
      let sec := optStrOf ext a.replacer a.options.to_section none
      let from_sec := optStrOf ext a.replacer a.options.from_section none
      ⟨a, { w with ctx := insert_into ext w.ctx p sec from_sec },
        [Event.importedContext p], ()⟩

/-- `CompileAction`: compiles templates against the context store
(priority 400).  `performed_compilations` is its idempotency ledger. -/
structure CompileAction where
  null_object : Bool
  options : CompileDict
  directory : FPath
  replacer : Replacer
  performed_compilations : Ledger

/-- `CompileAction.__init__`. -/
def mkCompileAction (options : CompileDict) (directory : FPath)
    (replacer : Replacer) : CompileAction :=
  ⟨options.isEmpty, options, directory, replacer, []⟩

/-- `CompileAction._create_temp_file`: a fresh persisted temporary file
named after the template. -/
def createTempFile (w : World) (name : String) : FPath × World :=
  let p : FPath := ⟨true, ["tmp", name ++ "-" ++ toString w.tempCounter]⟩
  (p, { w with fs := setNode w.fs p (FNode.file ""),
               tempCounter := w.tempCounter + 1 })

/-- `CompileAction.execute()`: resolve content and target (creating a
temporary target file when no target option is given, mutating the stored
options), skip with a logged error when the content path does not exist,
otherwise render every resolved pair and record it in the ledger. -/
def CompileAction.execute (ext : Externals) (a : CompileAction) (w : World) :
    Out CompileAction (List (FPath × FPath)) :=
  if a.null_object then ⟨a, w, [], []⟩
  else
    let tmp : CompileAction × World × List Event :=
      match a.options.target, a.options.content with
      | some _, _ => (a, w, [])
      | none, none =>
        -- a non-null action without content fails inside pathlib; the
        -- claims never reach this branch
        (a, w, [])
      | none, some cs =>
        let template := expand_path a.directory (strToFPath (a.replacer cs))
        let (tp, w2) := createTempFile w (template.comps.getLastD "")
        ({ a with options := { a.options with target := some (fpathToStr tp) } },
          w2, [Event.createdTempFile tp])
    let a2 := tmp.1
    let w2 := tmp.2.1
    let evs := tmp.2.2
    match optPathOf a2.replacer a2.directory a2.options.content with
    | none => ⟨a2, w2, evs, []⟩
    | some template_source =>
      let target_source :=
        (optPathOf a2.replacer a2.directory a2.options.target).getD ⟨true, []⟩
      if lookupFS w2.fs template_source = none then
        ⟨a2, w2, evs ++ [Event.errorLogged
          ("Could not compile template \"" ++ fpathToStr template_source ++
            "\" to target \"" ++ fpathToStr target_source ++ "\". No such path!")],
          []⟩
      else
        let inc := (optStrOf ext a2.replacer a2.options.include_pat
          (some "(.+)")).getD "(.+)"
        let compile_pairs :=
          resolve_targets ext w2.fs template_source target_source inc
        let fs3 := compile_pairs.foldl
          (fun acc pr => setNode acc pr.2 (FNode.file (ext.render pr.1))) w2.fs
        let ledger2 := compile_pairs.foldl
          (fun L pr => ledgerAdd L pr.1 pr.2) a2.performed_compilations
        ⟨{ a2 with performed_compilations := ledger2 }, { w2 with fs := fs3 },
          evs ++ compile_pairs.map (fun pr => Event.compiled pr.1 pr.2),
          compile_pairs⟩

/-- `CompileAction.performed_compilations()`. -/
def CompileAction.performedCompilations (a : CompileAction) : Ledger :=
  a.performed_compilations

/-- Python exceptions that can escape to the caller in the modelled code
paths. -/
inductive PyErr where
  | attributeError
  | assertionError
  | pyKeyError (s : String)
  | fileExistsError
  | isADirectoryError
  | fileNotFoundError
deriving DecidableEq, Repr

/-- `CompileAction.__contains__`: asserts the queried path is absolute,
answers False unless the query equals the resolved content option, and
otherwise checks the ledger. -/
def CompileAction.contains (a : CompileAction) (p : FPath) :
    Except PyErr Bool :=
  if ¬ p.abs then Except.error PyErr.assertionError
  else
    match optPathOf a.replacer a.directory a.options.content with
    | some c =>
      if c = p then Except.ok (ledgerHasKey a.performed_compilations p)
      else Except.ok false
    | none => Except.ok false

/-- Resolve a path through symbolic links, with fuel (Python path
resolution; exhausted fuel models ELOOP, on which `is_file()` answers
False). -/
def resolvePath (fs : FS) : Nat → FPath → Option FNode
  | 0, _ => none
  | fuel + 1, p =>
    match lookupFS fs p with
    | some (FNode.link d) => resolvePath fs fuel d
    | r => r

/-- `path.is_file()`: the path resolves — following symlinks — to a
regular file. -/
def isFileReal (fs : FS) (p : FPath) : Bool :=
  match resolvePath fs (fs.length + 1) p with
  | some (FNode.file _) => true
  | _ => false

/-- Resolve a node through symbolic links (used for ancestor checks,
which traverse links). -/
def resolveNode (fs : FS) : FNode → Option FNode
  | FNode.link d => resolvePath fs (fs.length + 1) d
  | n => some n

/-- `old.rename(new)`: POSIX rename.  Raises when the source is missing
or the destination exists as a directory; otherwise moves the node at the
source — a symlink is moved itself, not followed — silently replacing any
file at the destination. -/
def pyRename (fs : FS) (old new : FPath) : Except PyErr FS :=
  match lookupFS fs new with
  | some FNode.dir => Except.error PyErr.isADirectoryError
  | _ =>
    match lookupFS fs old with
    | none => Except.error PyErr.fileNotFoundError
    | some n => Except.ok (setNode (eraseNode fs old) new n)

/-- Create a chain of directories in order, as
`mkdir(parents=True, exist_ok=True)` does: a missing component is
created, an existing component must resolve to a directory, and anything
else raises (`FileExistsError` / `NotADirectoryError` in Python).  The
directories created before the failure are kept, as on a real
filesystem. -/
def mkdirChain (fs : FS) : List FPath → FS × Option PyErr
  | [] => (fs, none)
  | a :: rest =>
    match lookupFS fs a with
    | none => mkdirChain (setNode fs a FNode.dir) rest
    | some n =>
      match resolveNode fs n with
      | some FNode.dir => mkdirChain fs rest
      | _ => (fs, some PyErr.fileExistsError)

/-- `target.symlink_to(content)`: `os.symlink` raises `FileExistsError`
whenever the target path still exists — as a file, a directory, or any
symlink, dangling included. -/
def pySymlinkTo (fs : FS) (t content : FPath) : Except PyErr FS :=
  match lookupFS fs t with
  | some _ => Except.error PyErr.fileExistsError
  | none => Except.ok (setNode fs t (FNode.link content))

/-- One iteration of the symlink loop (actions.py:348-354): when the
target is a regular file — `is_file()` follows symlinks — it is first
renamed aside with a `.bak` suffix; then the missing ancestors of the
target are created; then the symlink to the content file is placed at
the target.  A raised exception is reported alongside the filesystem as
mutated so far. -/
def symlinkIter (fs : FS) (pr : FPath × FPath) : FS × Option PyErr :=
  match (if isFileReal fs pr.2 then pyRename fs pr.2 (bakPath pr.2)
         else Except.ok fs) with
  | Except.error e => (fs, some e)
  | Except.ok fs1 =>
    match mkdirChain fs1 (ancestors pr.2) with
    | (fs2, some e) => (fs2, some e)
    | (fs2, none) =>
      match pySymlinkTo fs2 pr.2 pr.1 with
      | Except.error e => (fs2, some e)
      | Except.ok fs3 => (fs3, none)

/-- The symlink loop: pairs are processed in order; the ledger entry and
event for a pair are recorded only after its symlink is created; the
first exception aborts the loop, keeping the partial effects. -/
def symlinkLoop : List (FPath × FPath) → FS → Ledger → List Event →
    FS × Ledger × List Event × Option PyErr
  | [], fs, led, evs => (fs, led, evs, none)
  | pr :: rest, fs, led, evs =>
    match symlinkIter fs pr with
    | (fs2, some e) => (fs2, led, evs, some e)
    | (fs2, none) =>
      symlinkLoop rest fs2 (ledgerAdd led pr.1 pr.2)
        (evs ++ [Event.symlinked pr.1 pr.2])

/-- `SymlinkAction`: creates symlinks (priority 200). -/
structure SymlinkAction where
  null_object : Bool
  options : SymlinkDict
  directory : FPath
  replacer : Replacer
  symlinked_files : Ledger

/-- `SymlinkAction.__init__`. -/
def mkSymlinkAction (options : SymlinkDict) (directory : FPath)
    (replacer : Replacer) : SymlinkAction :=
  ⟨options.isEmpty, options, directory, replacer, []⟩

/-- `SymlinkAction.execute()`: resolve the links, then run the symlink
loop; on success the links dictionary is returned, and a raised exception
propagates with the partial filesystem and ledger effects kept. -/
def SymlinkAction.execute (ext : Externals) (a : SymlinkAction) (w : World) :
    Out SymlinkAction (Except PyErr (List (FPath × FPath))) :=
  if a.null_object then ⟨a, w, [], Except.ok []⟩
  else
    let content := (optPathOf a.replacer a.directory a.options.content).getD
      ⟨true, []⟩
    let target := (optPathOf a.replacer a.directory a.options.target).getD
      ⟨true, []⟩
    let inc := (optStrOf ext a.replacer a.options.include_pat
      (some "(.+)")).getD "(.+)"
    let links := resolve_targets ext w.fs content target inc
    let r := symlinkLoop links w.fs a.symlinked_files []
    ⟨{ a with symlinked_files := r.2.1 }, { w with fs := r.1 }, r.2.2.1,
      match r.2.2.2 with
      | none => Except.ok links
      | some e => Except.error e⟩

/-- `CopyAction`: copies files (priority 300). `copied_files` is its
idempotency ledger. -/
structure CopyAction where
  null_object : Bool
  options : CopyDict
  directory : FPath
  replacer : Replacer
  copied_files : Ledger

/-- `CopyAction.__init__`. -/
def mkCopyAction (options : CopyDict) (directory : FPath)
    (replacer : Replacer) : CopyAction :=
  ⟨options.isEmpty, options, directory, replacer, []⟩

/-- One iteration of the copy loop: parents of the target are created and
the source node is copied to the target path. -/
def copyStep (fs : FS) (pr : FPath × FPath) : FS :=
  let fs1 := mkParents fs pr.2
  match lookupFS fs pr.1 with
  | some n => setNode fs1 pr.2 n
  | none => fs1

/-- `CopyAction.execute()`: copy each resolved pair, then, when a
permissions option is set, chmod every copy through the shell and log a
diagnostic for each failed chmod. -/
def CopyAction.execute (ext : Externals) (a : CopyAction) (w : World) :
    Out CopyAction (List (FPath × FPath)) :=
  if a.null_object then ⟨a, w, [], []⟩
  else
    let content := (optPathOf a.replacer a.directory a.options.content).getD
      ⟨true, []⟩
    let target := (optPathOf a.replacer a.directory a.options.target).getD
      ⟨true, []⟩
    let inc := (optStrOf ext a.replacer a.options.include_pat
      (some "(.+)")).getD "(.+)"
    let permissions := optStrOf ext a.replacer a.options.permissions none
    let copies := resolve_targets ext w.fs content target inc
    let fs2 := copies.foldl copyStep w.fs
    let ledger2 := copies.foldl (fun L pr => ledgerAdd L pr.1 pr.2)
      a.copied_files
    let permEvents :=
      match permissions with
      | none => []
      | some perms =>
        copies.filterMap fun pr =>
          if ext.shellOk ("chmod " ++ perms ++ " \"" ++ fpathToStr pr.2 ++ "\"")
          then none
          else some (Event.errorLogged
            ("Could not set \"" ++ perms ++ "\" permissions for copy \"" ++
              fpathToStr target ++ "\""))
    ⟨{ a with copied_files := ledger2 }, { w with fs := fs2 },
      copies.map (fun pr => Event.copied pr.1 pr.2) ++ permEvents, copies⟩

/-- `CopyAction.__contains__`: True when the path has been copied from. -/
def CopyAction.contains (a : CopyAction) (p : FPath) : Bool :=
  ledgerHasKey a.copied_files p

/-- The Copy-or-Symlink sub-action a Stow composite constructs for its
non-template files. -/
inductive NTAction where
  | copyA (a : CopyAction)
  | symlinkA (a : SymlinkAction)

/-- Execute the non-templates sub-action of a Stow composite; an
exception raised by the symlink loop propagates (the copy path is
modelled non-raising, as no claim exercises its error paths). -/
def NTAction.execute (ext : Externals) (nta : NTAction) (w : World) :
    Out NTAction (Except PyErr (List (FPath × FPath))) :=
  match nta with
  | NTAction.copyA a =>
    let o := CopyAction.execute ext a w
    ⟨NTAction.copyA o.action, o.world, o.events, Except.ok o.result⟩
  | NTAction.symlinkA a =>
    let o := SymlinkAction.execute ext a w
    ⟨NTAction.symlinkA o.action, o.world, o.events, o.result⟩

/-- `StowAction`: the composite action (priority 500).  `compile_action`
and `non_templates_action` are `none` exactly when the corresponding
attribute is never assigned by `__init__`; reading them through
`managed_files` then raises `AttributeError`, as in Python.
`ignore_non_templates` is only meaningful for non-null instances (the
source leaves the attribute unset for null objects and never reads it). -/
structure StowAction where
  null_object : Bool
  options : StowDict
  directory : FPath
  replacer : Replacer
  compile_action : Option CompileAction
  ignore_non_templates : Bool
  non_templates_action : Option NTAction

/-- `StowAction.__init__`: builds the equivalent compile action (include =
the `templates` pattern, default `template\.(.+)`), validates the
`non_templates` mode (an invalid mode is logged and degrades to ignore,
leaving `non_templates_action` unassigned), and otherwise builds the
complement Copy-or-Symlink action over the negated pattern.  A missing
required `content`/`target` key raises `KeyError`. -/
def mkStowAction (ext : Externals) (options : StowDict) (directory : FPath)
    (replacer : Replacer) : Except PyErr (StowAction × List Event) :=
  if options.isEmpty then
    Except.ok (⟨true, options, directory, replacer, none, false, none⟩, [])
  else
    match options.content, options.target with
    | some contentS, some targetS =>
      let compile_options : CompileDict :=
        { content := some contentS, target := some targetS,
          include_pat := some (options.templates.getD "template\\.(.+)"),
          permissions := options.permissions }
      let ca := mkCompileAction compile_options directory replacer
      let ntmode := (optStrOf ext replacer options.non_templates
        (some "symlink")).getD "symlink"
      let ignore0 := strLower ntmode = "ignore"
      if strLower ntmode = "copy" ∨ strLower ntmode = "symlink" ∨
          strLower ntmode = "ignore" then
        let excluded :=
          match options.templates with
          | some t => "(?!" ++ t ++ ").+"
          | none => "(?!template\\..+).+"
        let nta :=
          if strLower ntmode = "copy" then
            NTAction.copyA (mkCopyAction
              { content := some contentS, target := some targetS,
                include_pat := some excluded,
                permissions := options.permissions } directory replacer)
          else
            NTAction.symlinkA (mkSymlinkAction
              { content := some contentS, target := some targetS,
                include_pat := some excluded,
                permissions := options.permissions } directory replacer)
        Except.ok (⟨false, options, directory, replacer, some ca, ignore0,
          some nta⟩, [])
      else
        Except.ok (⟨false, options, directory, replacer, some ca, true,
          none⟩,
          [Event.errorLogged
            ("Invalid stow non_templates parameter:\"" ++ ntmode ++
              "\". Should be one of \"symlink\", \"copy\", or \"ignore\"!")])
    | _, _ => Except.error (PyErr.pyKeyError "content or target")

/-- `StowAction.execute()`: the null object does nothing; in ignore mode
only the compile sub-action is executed; otherwise the non-templates
sub-action is executed first, then the compile sub-action, and the
compilation dictionary is updated with the copies-or-links dictionary. -/
def StowAction.execute (ext : Externals) (a : StowAction) (w : World) :
    Out StowAction (Except PyErr (List (FPath × FPath))) :=
  if a.null_object then ⟨a, w, [], Except.ok []⟩
  else if a.ignore_non_templates then
    match a.compile_action with
    | none => ⟨a, w, [], Except.ok []⟩
    | some ca =>
      let o := CompileAction.execute ext ca w
      ⟨{ a with compile_action := some o.action }, o.world, o.events,
        Except.ok o.result⟩
  else
    match a.non_templates_action, a.compile_action with
    | some nta, some ca =>
      let o1 := NTAction.execute ext nta w
      match o1.result with
      | Except.error e =>
        -- an exception from the complement sub-action propagates before
        -- the compile sub-action runs
        ⟨{ a with non_templates_action := some o1.action }, o1.world,
          o1.events, Except.error e⟩
      | Except.ok copies_or_links =>
        let o2 := CompileAction.execute ext ca o1.world
        ⟨{ a with
            non_templates_action := some o1.action
            compile_action := some o2.action },
          o2.world, o1.events ++ o2.events,
          Except.ok (dictUpdate o2.result copies_or_links)⟩
    | _, _ => ⟨a, w, [], Except.ok []⟩

/-- `StowAction.managed_files()`: the compile ledger, updated with the
copy ledger when the non-templates sub-action is a copy action.  Reading
an attribute `__init__` never assigned raises `AttributeError`. -/
def StowAction.managedFiles (a : StowAction) : Except PyErr Ledger :=
  match a.compile_action with
  | none => Except.error PyErr.attributeError
  | some ca =>
    let managed := ca.performed_compilations
    match a.non_templates_action with
    | none => Except.error PyErr.attributeError
    | some (NTAction.copyA c) => Except.ok (dictUpdate managed c.copied_files)
    | some (NTAction.symlinkA _) => Except.ok managed

/-- `StowAction.__contains__`: asserts the path is absolute, then checks
membership among the managed-files keys. -/
def StowAction.contains (a : StowAction) (p : FPath) : Except PyErr Bool :=
  if ¬ p.abs then Except.error PyErr.assertionError
  else
    match a.managedFiles with
    | Except.error e => Except.error e
    | Except.ok m => Except.ok (ledgerHasKey m p)

/-- `RunAction`: runs one shell command (priority 600). -/
structure RunAction where
  null_object : Bool
  options : RunDict
  directory : FPath
  replacer : Replacer

/-- `RunAction.__init__`. -/
def mkRunAction (options : RunDict) (directory : FPath)
    (replacer : Replacer) : RunAction :=
  ⟨options.isEmpty, options, directory, replacer⟩

/-- `RunAction.execute(default_timeout)`: the null object returns None;
otherwise the command is logged, handed to the subprocess collaborator
with the configured or default timeout, and the `(command, stdout)` pair is
returned. -/
def RunAction.execute (ext : Externals) (a : RunAction)
    (default_timeout : Nat) (w : World) :
    Out RunAction (Option (String × String)) :=
  if a.null_object then ⟨a, w, [], none⟩
  else
    match optStrOf ext a.replacer a.options.shell none with
    | none =>
      -- a non-null action without `shell` fails inside the subprocess
      -- collaborator, which is outside this model
      ⟨a, w, [], none⟩
    | some command =>
      let _timeout := a.options.timeout.getD default_timeout
      ⟨a, w,
        [Event.infoLogged ("Running command \"" ++ command ++ "\"."),
          Event.ran command],
        some (command, ext.shell command)⟩

/-- A deferred instruction to re-fire another action block. -/
structure Trigger where
  block : String
  specified_path : Option String := none
  relative_path : Option FPath := none
  absolute_path : Option FPath := none
deriving DecidableEq, Repr

/-- `TriggerAction`: produces a `Trigger` value (priority 0). -/
structure TriggerAction where
  null_object : Bool
  options : TriggerDict
  directory : FPath
  replacer : Replacer

/-- `TriggerAction.__init__`. -/
def mkTriggerAction (options : TriggerDict) (directory : FPath)
    (replacer : Replacer) : TriggerAction :=
  ⟨options.isEmpty, options, directory, replacer⟩

/-- `TriggerAction.execute()`: pure data production; an `on_modified`
block additionally carries the watched path in relative and absolute
form. -/
def TriggerAction.execute (ext : Externals) (a : TriggerAction) (w : World) :
    Out TriggerAction (Option Trigger) :=
  if a.null_object then ⟨a, w, [], none⟩
  else
    let block := (optStrOf ext a.replacer a.options.block none).getD ""
    if block ≠ "on_modified" then ⟨a, w, [], some { block := block }⟩
    else
      match optStrOf ext a.replacer a.options.path none with
      | none =>
        -- a non-null on_modified trigger without `path` fails inside
        -- pathlib; the claims never reach this branch
        ⟨a, w, [], some { block := block }⟩
      | some sp =>
        ⟨a, w, [],
          some { block := block, specified_path := some sp,
                 relative_path := some (strToFPath sp),
                 absolute_path := some (expand_path a.directory
                   (strToFPath sp)) }⟩

/-! ## Action blocks -/

/-- The user configuration of one action block.  `cast_to_list` in the
source turns a single dictionary into a singleton list, so each action kind
is a list here.  The `symlink` key is accepted by `ActionBlock.__init__`
(its identifier loop includes `symlink`) even though the block TypedDict
does not declare it. -/
structure ActionBlockDict where
  import_context : List ImportContextDict := []
  symlink : List SymlinkDict := []
  compile : List CompileDict := []
  run : List RunDict := []
  trigger : List TriggerDict := []

/-- An action block: the per-kind action lists built by
`ActionBlock.__init__`. -/
structure ActionBlock where
  import_context_actions : List ImportContextAction
  symlink_actions : List SymlinkAction
  compile_actions : List CompileAction
  run_actions : List RunAction
  trigger_actions : List TriggerAction

/-- `ActionBlock.__init__`: instantiate every configured action of every
kind. -/
def mkActionBlock (d : ActionBlockDict) (directory : FPath)
    (replacer : Replacer) : ActionBlock :=
  ⟨d.import_context.map (mkImportContextAction · directory replacer),
    d.symlink.map (mkSymlinkAction · directory replacer),
    d.compile.map (mkCompileAction · directory replacer),
    d.run.map (mkRunAction · directory replacer),
    d.trigger.map (mkTriggerAction · directory replacer)⟩

/-- `ActionBlock.import_context()`: execute every import-context action in
declaration order. -/
def execImports (ext : Externals) :
    List ImportContextAction → World → PhOut ImportContextAction
  | [], w => ⟨[], w, []⟩
  | a :: t, w =>
    let o := ImportContextAction.execute ext a w
    let r := execImports ext t o.world
    ⟨o.action :: r.actions, r.world, o.events ++ r.events⟩

/-- `ActionBlock.symlink()`: execute every symlink action in declaration
order.  (`ActionBlock.execute` never calls this method.) -/
def execSymlinks (ext : Externals) :
    List SymlinkAction → World → PhOut SymlinkAction
  | [], w => ⟨[], w, []⟩
  | a :: t, w =>
    let o := SymlinkAction.execute ext a w
    let r := execSymlinks ext t o.world
    ⟨o.action :: r.actions, r.world, o.events ++ r.events⟩

/-- `ActionBlock.compile()`: execute every compile action in declaration
order. -/
def execCompiles (ext : Externals) :
    List CompileAction → World → PhOut CompileAction
  | [], w => ⟨[], w, []⟩
  | a :: t, w =>
    let o := CompileAction.execute ext a w
    let r := execCompiles ext t o.world
    ⟨o.action :: r.actions, r.world, o.events ++ r.events⟩

/-- `ActionBlock.run(default_timeout)`: execute every run action in
declaration order. -/
def execRunActions (ext : Externals) (default_timeout : Nat) :
    List RunAction → World → PhOut RunAction
  | [], w => ⟨[], w, []⟩
  | a :: t, w =>
    let o := RunAction.execute ext a default_timeout w
    let r := execRunActions ext default_timeout t o.world
    ⟨o.action :: r.actions, r.world, o.events ++ r.events⟩

/-- `ActionBlock.execute(default_timeout)`: perform all context imports,
then compile all templates, then run all shell commands.  The symlink and
trigger action lists are left untouched. -/
def ActionBlock.execute (ext : Externals) (b : ActionBlock)
    (default_timeout : Nat) (w : World) : Out ActionBlock Unit :=
  let p1 := execImports ext b.import_context_actions w
  let p2 := execCompiles ext b.compile_actions p1.world
  let p3 := execRunActions ext default_timeout b.run_actions p2.world
  ⟨{ b with
      import_context_actions := p1.actions
      compile_actions := p2.actions
      run_actions := p3.actions },
    p3.world, p1.events ++ p2.events ++ p3.events, ()⟩

/-! ## Event classification and ordering helpers -/

/-- Events only the import-context phase can emit. -/
def isImportEv : Event → Bool
  | Event.importedContext _ => true
  | _ => false

/-- Events only the compile phase can emit. -/
def isCompileEv : Event → Bool
  | Event.compiled _ _ => true
  | Event.errorLogged _ => true
  | Event.createdTempFile _ => true
  | _ => false

/-- Events only the shell-run phase can emit. -/
def isRunEv : Event → Bool
  | Event.ran _ => true
  | Event.infoLogged _ => true
  | _ => false

/-- A symlink creation event. -/
def isSymlinkEv : Event → Bool
  | Event.symlinked _ _ => true
  | _ => false

/-- A file-copy event. -/
def isCopiedEv : Event → Bool
  | Event.copied _ _ => true
  | _ => false

/-- A template-compilation event. -/
def isCompiledEv : Event → Bool
  | Event.compiled _ _ => true
  | _ => false

/-- Some event satisfying `p` occurs strictly before some later event
satisfying `q`. -/
def occursBefore (p q : Event → Bool) : List Event → Bool
  | [] => false
  | e :: t => (p e && t.any q) || occursBefore p q t

/-! ## Single-invocation state steps (for iterated execution) -/

/-- The `(action, world)` state step of one `ImportContextAction.execute()`
invocation. -/
def importStep (ext : Externals) (p : ImportContextAction × World) :
    ImportContextAction × World :=
  let o := ImportContextAction.execute ext p.1 p.2
  (o.action, o.world)

/-- The state step of one `CompileAction.execute()` invocation. -/
def compileStep (ext : Externals) (p : CompileAction × World) :
    CompileAction × World :=
  let o := CompileAction.execute ext p.1 p.2
  (o.action, o.world)

/-- The state step of one `SymlinkAction.execute()` invocation. -/
def symlinkActionStep (ext : Externals) (p : SymlinkAction × World) :
    SymlinkAction × World :=
  let o := SymlinkAction.execute ext p.1 p.2
  (o.action, o.world)

/-- The state step of one `CopyAction.execute()` invocation. -/
def copyActionStep (ext : Externals) (p : CopyAction × World) :
    CopyAction × World :=
  let o := CopyAction.execute ext p.1 p.2
  (o.action, o.world)

/-- The state step of one `StowAction.execute()` invocation. -/
def stowStep (ext : Externals) (p : StowAction × World) :
    StowAction × World :=
  let o := StowAction.execute ext p.1 p.2
  (o.action, o.world)

/-- The state step of one `RunAction.execute(dt)` invocation. -/
def runActionStep (ext : Externals) (dt : Nat) (p : RunAction × World) :
    RunAction × World :=
  let o := RunAction.execute ext p.1 dt p.2
  (o.action, o.world)

/-- The state step of one `TriggerAction.execute()` invocation. -/
def triggerStep (ext : Externals) (p : TriggerAction × World) :
    TriggerAction × World :=
  let o := TriggerAction.execute ext p.1 p.2
  (o.action, o.world)

/-! ## Concrete inputs used by witnesses and counterexamples -/

/-- The identity replacer (configurations without placeholders). -/
def sid : Replacer := fun s => s

/-- The filesystem root. -/
def dirRoot : FPath := ⟨true, []⟩

/-- A concrete external collaborator: a regex engine table covering the
include patterns the engine constructs, identity environment expansion, a
constant template renderer and a silent shell. -/
def ext0 : Externals where
  reMatch := fun pat fn =>
    if pat = "(.+)" then some fn
    else if pat = "template\\.(.+)" then
      (if strStarts fn "template." then some (strDrop fn 9) else none)
    else if pat = "(?!template\\..+).+" then
      (if strStarts fn "template." then none else some fn)
    else none
  expandvars := fun s => s
  render := fun _ => "rendered"
  loadContext := fun _ _ _ => []
  shell := fun _ => ""
  shellOk := fun _ => true

/-- A store holding one string key and integer key 1
(`test_integer_index_resolution`). -/
def ctxC1 : Context String :=
  ⟨[(CKey.str "some_key", "some_value"), (CKey.int 1, "FureCode Nerd Font")]⟩

/-- A store holding only a string key
(`test_integer_index_resolution_without_earlier_index_key`). -/
def ctxC1b : Context String := ⟨[(CKey.str "some_key", "some_value")]⟩

/-- A store holding only integer key 2
(`test_index_resolution_with_string_key`). -/
def ctxC5 : Context String := ⟨[(CKey.int 2, "some_value")]⟩

/-- Extract the value of a successful `Except`, with a fallback. -/
def exceptOk {E A : Type} (d : A) : Except E A → A
  | Except.ok a => a
  | Except.error _ => d

/-- A world with an empty filesystem and context store. -/
def wEmpty : World := ⟨[], ⟨[]⟩, 0⟩

/-- A block declaring exactly one (non-null) symlink action. -/
def blockC2 : ActionBlock :=
  mkActionBlock
    { symlink := [{ content := some "/c", target := some "/t" }] }
    dirRoot sid

/-- A world whose filesystem holds the symlink content file of
`blockC2`. -/
def wC2 : World := ⟨[(⟨true, ["c"]⟩, FNode.file "hello")], ⟨[]⟩, 0⟩

/-- Stow options with `non_templates: copy` over `/c` into `/t`. -/
def stowDictC3 : StowDict :=
  { content := some "/c", target := some "/t", non_templates := some "copy" }

/-- A placeholder stow action used as `exceptOk` fallback. -/
def stowJunk : StowAction := ⟨true, {}, dirRoot, sid, none, false, none⟩

/-- The stow action built from `stowDictC3`. -/
def stowC3 : StowAction :=
  exceptOk stowJunk (Except.map Prod.fst (mkStowAction ext0 stowDictC3 dirRoot sid))

/-- A world with a stow content directory holding one template and one
non-template file. -/
def wC3 : World :=
  ⟨[(⟨true, ["c"]⟩, FNode.dir),
    (⟨true, ["c", "template.x"]⟩, FNode.file "tpl"),
    (⟨true, ["c", "plain"]⟩, FNode.file "p")], ⟨[]⟩, 0⟩

/-- A compile action whose content path does not exist in `wEmpty`. -/
def compileC6 : CompileAction :=
  mkCompileAction { content := some "/missing.template", target := some "/t" }
    dirRoot sid

/-- A compile action with a missing content path and no target option. -/
def compileC6b : CompileAction :=
  mkCompileAction { content := some "/missing.template" } dirRoot sid

/-- A symlink action from `/c` onto `/t`. -/
def symlinkC7 : SymlinkAction :=
  mkSymlinkAction { content := some "/c", target := some "/t" } dirRoot sid

/-- A world where the symlink target `/t` already exists as a regular
file. -/
def wC7 : World :=
  ⟨[(⟨true, ["c"]⟩, FNode.file "hello"), (⟨true, ["t"]⟩, FNode.file "old")],
    ⟨[]⟩, 0⟩

/-- A world where the symlink target `/t` persists as a directory, so
that `symlink_to` raises `FileExistsError`. -/
def wC7dir : World :=
  ⟨[(⟨true, ["c"]⟩, FNode.file "hello"), (⟨true, ["t"]⟩, FNode.dir)],
    ⟨[]⟩, 0⟩

/-- A compile action over the content directory `/c`. -/
def compileC8 : CompileAction :=
  mkCompileAction { content := some "/c", target := some "/t" } dirRoot sid

/-- A world with a content directory `/c` holding one file. -/
def wC8 : World :=
  ⟨[(⟨true, ["c"]⟩, FNode.dir), (⟨true, ["c", "f"]⟩, FNode.file "x")],
    ⟨[]⟩, 0⟩

/-- A compile action whose content is the single file `/tpl`. -/
def compileC8w : CompileAction :=
  mkCompileAction { content := some "/tpl", target := some "/t" } dirRoot sid

/-- A world holding the single template file `/tpl`. -/
def wC8w : World := ⟨[(⟨true, ["tpl"]⟩, FNode.file "x")], ⟨[]⟩, 0⟩

/-- Stow options with the invalid non-templates mode `link`. -/
def stowDictC9 : StowDict :=
  { content := some "/c", target := some "/t", non_templates := some "link" }

/-- Stow options with `non_templates: ignore`. -/
def stowDictC10 : StowDict :=
  { content := some "/c", target := some "/t", non_templates := some "ignore" }

/-- The stow action built from `stowDictC10`. -/
def stowC10 : StowAction :=
  exceptOk stowJunk (Except.map Prod.fst (mkStowAction ext0 stowDictC10 dirRoot sid))

/-- The include pattern stored in the options of a non-templates
sub-action. -/
def ntaInclude : NTAction → Option String
  | NTAction.copyA a => a.options.include_pat
  | NTAction.symlinkA a => a.options.include_pat

/-! ## Context store lemmas -/

theorem mem_filterIntBelow {α : Type} (l : List (CKey × α)) (k x : Int) :
    x ∈ (l.filterMap fun e =>
      match e.1 with
      | CKey.int j => if j < k then some j else none
      | CKey.str _ => none) ↔
    x < k ∧ (Context.rawLookupL l (CKey.int x)).isSome := by
  induction l with
  | nil => simp [Context.rawLookupL]
  | cons e t ih =>
    obtain ⟨ek, ev⟩ := e
    cases ek with
    | str s =>
      simp only [List.filterMap_cons, Context.rawLookupL]
      have : (CKey.str s = CKey.int x) = False := by simp
      simp [this, ih]
    | int j =>
      simp only [List.filterMap_cons, Context.rawLookupL]
      by_cases hjx : j = x
      · subst hjx
        by_cases hlt : j < k
        · simp [hlt, ih]
        · simp [hlt, ih]
      · have hne : (CKey.int j = CKey.int x) = False := by simp [hjx]
        by_cases hlt : j < k
        · simp [hlt, hne, ih, Ne.symm hjx]
        · simp [hlt, hne, ih]

theorem listMax_spec (l : List Int) (m : Int)
    (h : Context.listMax l = some m) : m ∈ l ∧ ∀ x ∈ l, x ≤ m := by
  induction l generalizing m with
  | nil => simp [Context.listMax] at h
  | cons x xs ih =>
    simp only [Context.listMax] at h
    cases hx : Context.listMax xs with
    | none =>
      rw [hx] at h
      cases h
      have hempty : xs = [] := by
        cases xs with
        | nil => rfl
        | cons y ys => simp [Context.listMax] at hx; cases h2 : Context.listMax ys <;> simp [h2] at hx
      subst hempty
      simp
    | some m2 =>
      rw [hx] at h
      cases h
      obtain ⟨hmem, hub⟩ := ih m2 hx
      constructor
      · rcases max_choice x m2 with h | h <;> rw [h]
        · exact List.mem_cons_self _ _
        · exact List.mem_cons_of_mem _ hmem
      · intro y hy
        rcases List.mem_cons.mp hy with h | h
        · subst h; exact le_max_left _ _
        · exact le_trans (hub y h) (le_max_right _ _)

theorem listMax_isSome_of_mem (l : List Int) (x : Int) (h : x ∈ l) :
    ∃ m, Context.listMax l = some m := by
  cases l with
  | nil => simp at h
  | cons y ys =>
    simp only [Context.listMax]
    cases h2 : Context.listMax ys with
    | none => exact ⟨y, rfl⟩
    | some m2 => exact ⟨max y m2, rfl⟩

theorem mem_intKeysBelow {α : Type} (c : Context α) (k x : Int) :
    x ∈ c.intKeysBelow k ↔
      x < k ∧ (c.rawLookup (CKey.int x)).isSome := by
  exact mem_filterIntBelow c.entries k x

/-- C1: for every Context Store and every integer key `k` not present, if
some integer key `j < k` is present then indexed access `store[k]` returns
`store[j]` for the greatest such `j`; if no integer key strictly below `k`
is present, indexed access fails with the distinguishable "no lower index"
error. -/
theorem context_integer_index_fallback {α : Type} (c : Context α) (k : Int)
    (habs : c.rawLookup (CKey.int k) = none) :
    (∀ j v, c.rawLookup (CKey.int j) = some v → j < k →
      (∀ x ∈ c.intKeysBelow k, x ≤ j) →
      c.getitem (CKey.int k) = Except.ok v ∧
      c.getitem (CKey.int k) = c.getitem (CKey.int j)) ∧
    ((∀ j, j < k → c.rawLookup (CKey.int j) = none) →
      c.getitem (CKey.int k) = Except.error (CtxErr.noLowerIndex k)) := by
  constructor
  · intro j v hj hlt hmax
    have hjmem : j ∈ c.intKeysBelow k := by
      rw [mem_intKeysBelow]
      exact ⟨hlt, by simp [hj]⟩
    obtain ⟨m, hm⟩ := listMax_isSome_of_mem _ j hjmem
    obtain ⟨hmmem, hub⟩ := listMax_spec _ m hm
    have hmj : m = j := le_antisymm (hmax m hmmem) (hub j hjmem)
    subst hmj
    constructor
    · simp [Context.getitem, habs, hm, hj]
    · simp [Context.getitem, habs, hm, hj]
  · intro hnone
    have hempty : c.intKeysBelow k = [] := by
      rw [List.eq_nil_iff_forall_not_mem]
      intro x hx
      rw [mem_intKeysBelow] at hx
      rw [hnone x hx.1] at hx
      simp at hx
    simp [Context.getitem, habs, hempty, Context.listMax]

/-- C1 witness: the stores of the repository tests.  In
`{"some_key": ..., 1: "FureCode Nerd Font"}` the absent key 2 resolves to
key 1; in `{"some_key": ...}` it raises the "no lower index" error. -/
theorem context_integer_index_fallback_witness :
    (Context.getitem ctxC1 (CKey.int 2) = Except.ok "FureCode Nerd Font" ∧
      Context.getitem ctxC1 (CKey.int 2) = Context.getitem ctxC1 (CKey.int 1)) ∧
    Context.getitem ctxC1b (CKey.int 2) =
      Except.error (CtxErr.noLowerIndex 2) := by
  constructor
  · exact (context_integer_index_fallback ctxC1 2 rfl).1 1 "FureCode Nerd Font"
      rfl (by decide) (by decide)
  · exact (context_integer_index_fallback ctxC1b 2 rfl).2 (fun j _ => rfl)

/-- C5: an absent string key never falls back: indexed access raises a key
error carrying exactly the key, the same shape a plain mapping produces. -/
theorem context_string_key_no_fallback {α : Type} (c : Context α)
    (s : String) (habs : c.rawLookup (CKey.str s) = none) :
    c.getitem (CKey.str s) = Except.error (CtxErr.keyError (CKey.str s)) ∧
    c.getitem (CKey.str s) = c.plainGetitem (CKey.str s) := by
  constructor
  · simp [Context.getitem, habs]
  · simp [Context.getitem, Context.plainGetitem, habs]

/-- C5 witness: the store `{2: "some_value"}` of the repository test raises
`KeyError("test")` for the absent string key. -/
theorem context_string_key_no_fallback_witness :
    Context.getitem ctxC5 (CKey.str "test") =
      Except.error (CtxErr.keyError (CKey.str "test")) ∧
    Context.getitem ctxC5 (CKey.str "test") =
      Context.plainGetitem ctxC5 (CKey.str "test") :=
  context_string_key_no_fallback ctxC5 "test" rfl

/-! ## Null-object behaviour -/

/-- C4: an action of any kind constructed with empty options is a null
object: `execute()` leaves the world (filesystem and context store)
untouched, emits no event — performs no I/O — returns the empty or None
result, and does so on every invocation (iterating the state step any
number of times is the identity). -/
theorem null_object_actions_are_noops (ext : Externals) (dir : FPath)
    (rep : Replacer) (w : World) (dt : Nat) :
    (ImportContextAction.execute ext (mkImportContextAction {} dir rep) w =
      ⟨mkImportContextAction {} dir rep, w, [], ()⟩) ∧
    (CompileAction.execute ext (mkCompileAction {} dir rep) w =
      ⟨mkCompileAction {} dir rep, w, [], []⟩) ∧
    (SymlinkAction.execute ext (mkSymlinkAction {} dir rep) w =
      ⟨mkSymlinkAction {} dir rep, w, [], Except.ok []⟩) ∧
    (CopyAction.execute ext (mkCopyAction {} dir rep) w =
      ⟨mkCopyAction {} dir rep, w, [], []⟩) ∧
    (mkStowAction ext {} dir rep =
      Except.ok (⟨true, {}, dir, rep, none, false, none⟩, [])) ∧
    (StowAction.execute ext ⟨true, {}, dir, rep, none, false, none⟩ w =
      ⟨⟨true, {}, dir, rep, none, false, none⟩, w, [], Except.ok []⟩) ∧
    (RunAction.execute ext (mkRunAction {} dir rep) dt w =
      ⟨mkRunAction {} dir rep, w, [], none⟩) ∧
    (TriggerAction.execute ext (mkTriggerAction {} dir rep) w =
      ⟨mkTriggerAction {} dir rep, w, [], none⟩) ∧
    (∀ n, (importStep ext)^[n] (mkImportContextAction {} dir rep, w) =
      (mkImportContextAction {} dir rep, w)) ∧
    (∀ n, (compileStep ext)^[n] (mkCompileAction {} dir rep, w) =
      (mkCompileAction {} dir rep, w)) ∧
    (∀ n, (symlinkActionStep ext)^[n] (mkSymlinkAction {} dir rep, w) =
      (mkSymlinkAction {} dir rep, w)) ∧
    (∀ n, (copyActionStep ext)^[n] (mkCopyAction {} dir rep, w) =
      (mkCopyAction {} dir rep, w)) ∧
    (∀ n, (stowStep ext)^[n] (⟨true, {}, dir, rep, none, false, none⟩, w) =
      ((⟨true, {}, dir, rep, none, false, none⟩ : StowAction), w)) ∧
    (∀ n, (runActionStep ext dt)^[n] (mkRunAction {} dir rep, w) =
      (mkRunAction {} dir rep, w)) ∧
    (∀ n, (triggerStep ext)^[n] (mkTriggerAction {} dir rep, w) =
      (mkTriggerAction {} dir rep, w)) := by
  refine ⟨rfl, rfl, rfl, rfl, rfl, rfl, rfl, rfl,
    fun n => Function.iterate_fixed rfl n,
    fun n => Function.iterate_fixed rfl n,
    fun n => Function.iterate_fixed rfl n,
    fun n => Function.iterate_fixed rfl n,
    fun n => Function.iterate_fixed rfl n,
    fun n => Function.iterate_fixed rfl n,
    fun n => Function.iterate_fixed rfl n⟩

/-! ## Phase classification lemmas -/

theorem filter_of_all {α : Type} (p : α → Bool) :
    ∀ (l : List α), (∀ e ∈ l, p e = true) → l.filter p = l := by
  intro l h
  induction l with
  | nil => rfl
  | cons x t ih =>
    have hx := h x (List.mem_cons_self x t)
    simp only [List.filter_cons, hx, if_pos]
    rw [ih fun e he => h e (List.mem_cons_of_mem x he)]

theorem filter_of_none {α : Type} (p : α → Bool) :
    ∀ (l : List α), (∀ e ∈ l, p e = false) → l.filter p = [] := by
  intro l h
  induction l with
  | nil => rfl
  | cons x t ih =>
    have hx := h x (List.mem_cons_self x t)
    simp only [List.filter_cons, hx]
    exact ih fun e he => h e (List.mem_cons_of_mem x he)

theorem import_execute_events_kind (ext : Externals)
    (a : ImportContextAction) (w : World) :
    ∀ e ∈ (ImportContextAction.execute ext a w).events, isImportEv e = true := by
  intro e he
  by_cases h0 : a.null_object
  · simp [ImportContextAction.execute, h0] at he
  · rcases hp : optPathOf a.replacer a.directory a.options.from_path with _ | p
    · simp [ImportContextAction.execute, h0, hp] at he
    · simp only [ImportContextAction.execute, h0, hp, if_neg,
        Bool.not_eq_true] at he
      simp at he
      subst he
      rfl

theorem compile_execute_events_kind (ext : Externals) (a : CompileAction)
    (w : World) :
    ∀ e ∈ (CompileAction.execute ext a w).events, isCompileEv e = true := by
  intro e he
  by_cases h0 : a.null_object
  · simp [CompileAction.execute, h0] at he
  · rcases ht : a.options.target with _ | ts <;>
      rcases hc : a.options.content with _ | cs <;>
      simp only [CompileAction.execute, h0, ht, hc, Bool.false_eq_true,
        if_false, optPathOf] at he
    · simp at he
    · -- no target, content present: temporary file plus compilation
      split at he
      · simp at he
        rcases he with h | h <;> (subst h; rfl)
      · simp at he
        rcases he with h | ⟨x, y, _, h⟩
        · subst h
          rfl
        · subst h
          rfl
    · simp at he
    · -- target and content both present
      split at he
      · simp at he
        subst he
        rfl
      · simp at he
        obtain ⟨x, y, _, h⟩ := he
        subst h
        rfl

theorem run_execute_events_kind (ext : Externals) (a : RunAction) (dt : Nat)
    (w : World) :
    ∀ e ∈ (RunAction.execute ext a dt w).events, isRunEv e = true := by
  intro e he
  by_cases h0 : a.null_object
  · simp [RunAction.execute, h0] at he
  · rcases hs : optStrOf ext a.replacer a.options.shell none with _ | cmd
    · simp [RunAction.execute, h0, hs] at he
    · simp only [RunAction.execute, h0, hs, Bool.false_eq_true, if_false] at he
      simp at he
      rcases he with h | h <;> (subst h; rfl)

theorem execImports_events_kind (ext : Externals) :
    ∀ (l : List ImportContextAction) (w : World),
      ∀ e ∈ (execImports ext l w).events, isImportEv e = true := by
  intro l
  induction l with
  | nil => intro w e he; simp [execImports] at he
  | cons a t ih =>
    intro w e he
    simp only [execImports] at he
    rcases List.mem_append.mp he with h | h
    · exact import_execute_events_kind ext a w e h
    · exact ih _ e h

theorem execCompiles_events_kind (ext : Externals) :
    ∀ (l : List CompileAction) (w : World),
      ∀ e ∈ (execCompiles ext l w).events, isCompileEv e = true := by
  intro l
  induction l with
  | nil => intro w e he; simp [execCompiles] at he
  | cons a t ih =>
    intro w e he
    simp only [execCompiles] at he
    rcases List.mem_append.mp he with h | h
    · exact compile_execute_events_kind ext a w e h
    · exact ih _ e h

theorem execRunActions_events_kind (ext : Externals) (dt : Nat) :
    ∀ (l : List RunAction) (w : World),
      ∀ e ∈ (execRunActions ext dt l w).events, isRunEv e = true := by
  intro l
  induction l with
  | nil => intro w e he; simp [execRunActions] at he
  | cons a t ih =>
    intro w e he
    simp only [execRunActions] at he
    rcases List.mem_append.mp he with h | h
    · exact run_execute_events_kind ext a dt w e h
    · exact ih _ e h

theorem importEv_kinds (e : Event) (h : isImportEv e = true) :
    isCompileEv e = false ∧ isRunEv e = false ∧ isSymlinkEv e = false := by
  cases e <;> simp_all [isImportEv, isCompileEv, isRunEv, isSymlinkEv]

theorem compileEv_kinds (e : Event) (h : isCompileEv e = true) :
    isImportEv e = false ∧ isRunEv e = false ∧ isSymlinkEv e = false := by
  cases e <;> simp_all [isImportEv, isCompileEv, isRunEv, isSymlinkEv]

theorem runEv_kinds (e : Event) (h : isRunEv e = true) :
    isImportEv e = false ∧ isCompileEv e = false ∧ isSymlinkEv e = false := by
  cases e <;> simp_all [isImportEv, isCompileEv, isRunEv, isSymlinkEv]

/-! ## Action-block execution order -/

/-- C2 (amended): a single `ActionBlock.execute()` call runs all
context-import actions first, then all compile actions, then all shell-run
actions — the trace is exactly its import part followed by its compile part
followed by its run part — but symlink actions, though constructed by the
block, are never executed by `execute()`: the symlink action list is left
untouched and no symlink event is ever emitted (copy and stow actions are
not part of an ActionBlock at all). -/
theorem actionblock_execute_phase_order (ext : Externals) (b : ActionBlock)
    (dt : Nat) (w : World) :
    (ActionBlock.execute ext b dt w).events.filter isImportEv ++
      (ActionBlock.execute ext b dt w).events.filter isCompileEv ++
      (ActionBlock.execute ext b dt w).events.filter isRunEv =
      (ActionBlock.execute ext b dt w).events ∧
    (ActionBlock.execute ext b dt w).events.filter isSymlinkEv = [] ∧
    (ActionBlock.execute ext b dt w).action.symlink_actions =
      b.symlink_actions := by
  have hev : (ActionBlock.execute ext b dt w).events =
      (execImports ext b.import_context_actions w).events ++
      (execCompiles ext b.compile_actions
        (execImports ext b.import_context_actions w).world).events ++
      (execRunActions ext dt b.run_actions
        (execCompiles ext b.compile_actions
          (execImports ext b.import_context_actions w).world).world).events :=
    rfl
  set e1 := (execImports ext b.import_context_actions w).events with he1
  set e2 := (execCompiles ext b.compile_actions
    (execImports ext b.import_context_actions w).world).events with he2
  set e3 := (execRunActions ext dt b.run_actions
    (execCompiles ext b.compile_actions
      (execImports ext b.import_context_actions w).world).world).events with he3
  have h1 : ∀ e ∈ e1, isImportEv e = true := by
    intro e he; exact execImports_events_kind ext _ _ e he
  have h2 : ∀ e ∈ e2, isCompileEv e = true := by
    intro e he; exact execCompiles_events_kind ext _ _ e he
  have h3 : ∀ e ∈ e3, isRunEv e = true := by
    intro e he; exact execRunActions_events_kind ext dt _ _ e he
  refine ⟨?_, ?_, rfl⟩
  · rw [hev]
    simp only [List.filter_append]
    rw [filter_of_all _ e1 h1,
        filter_of_none isImportEv e2 (fun e he => (compileEv_kinds e (h2 e he)).1),
        filter_of_none isImportEv e3 (fun e he => (runEv_kinds e (h3 e he)).1),
        filter_of_none isCompileEv e1 (fun e he => (importEv_kinds e (h1 e he)).1),
        filter_of_all _ e2 h2,
        filter_of_none isCompileEv e3 (fun e he => (runEv_kinds e (h3 e he)).2.1),
        filter_of_none isRunEv e1 (fun e he => (importEv_kinds e (h1 e he)).2.1),
        filter_of_none isRunEv e2 (fun e he => (compileEv_kinds e (h2 e he)).2.1),
        filter_of_all _ e3 h3]
    simp
  · rw [hev]
    simp only [List.filter_append]
    rw [filter_of_none isSymlinkEv e1 (fun e he => (importEv_kinds e (h1 e he)).2.2),
        filter_of_none isSymlinkEv e2 (fun e he => (compileEv_kinds e (h2 e he)).2.2),
        filter_of_none isSymlinkEv e3 (fun e he => (runEv_kinds e (h3 e he)).2.2)]
    rfl

/-- C2 counterexample: a block declaring one non-null symlink action.  The
claim says every file action declared in the block is executed, yet
`execute()` emits no event and leaves the world unchanged, while the
declared symlink action, executed directly, would create a symlink. -/
theorem actionblock_symlink_declared_but_skipped_cx :
    (ActionBlock.execute ext0 blockC2 0 wC2).events = [] ∧
    (ActionBlock.execute ext0 blockC2 0 wC2).world = wC2 ∧
    blockC2.symlink_actions.length = 1 ∧
    blockC2.symlink_actions.map
        (fun a => (SymlinkAction.execute ext0 a wC2).events) =
      [[Event.symlinked ⟨true, ["c"]⟩ ⟨true, ["t"]⟩]] := by
  refine ⟨rfl, by decide, rfl, rfl⟩

/-! ## Filesystem pointwise lemmas -/

theorem lookup_erase_ne (fs : FS) (p q : FPath) (h : p ≠ q) :
    lookupFS (eraseNode fs p) q = lookupFS fs q := by
  induction fs with
  | nil => rfl
  | cons e t ih =>
    obtain ⟨ep, en⟩ := e
    by_cases hep : ep = p
    · subst hep
      have : (ep = q) = False := by simp [h]
      simp [eraseNode, lookupFS, ih, this]
    · simp only [eraseNode, if_neg hep, lookupFS]
      by_cases heq : ep = q
      · simp [heq]
      · simp [heq, ih]

theorem lookup_erase_self (fs : FS) (p : FPath) :
    lookupFS (eraseNode fs p) p = none := by
  induction fs with
  | nil => rfl
  | cons e t ih =>
    obtain ⟨ep, en⟩ := e
    by_cases hep : ep = p
    · simp [eraseNode, hep, ih]
    · simp [eraseNode, hep, lookupFS, ih]

theorem lookup_setNode (fs : FS) (p : FPath) (n : FNode) (q : FPath) :
    lookupFS (setNode fs p n) q =
      if p = q then some n else lookupFS fs q := by
  by_cases h : p = q
  · simp [setNode, lookupFS, h]
  · simp [setNode, lookupFS, h, lookup_erase_ne fs p q h]

theorem ancestors_ne_self (t : FPath) (a : FPath) (h : a ∈ ancestors t) :
    a ≠ t := by
  simp only [ancestors, List.mem_map, List.mem_range] at h
  obtain ⟨k, hk, ha⟩ := h
  intro he
  rw [← ha] at he
  have := congrArg (fun p => p.comps.length) he
  simp only [List.length_take] at this
  omega

theorem bak_ne (t : FPath) : bakPath t ≠ t := by
  intro h
  have hc := congrArg FPath.comps h
  simp only [bakPath] at hc
  have hlast : t.comps.getLast? = some (t.comps.getLastD "" ++ ".bak") := by
    conv_lhs => rw [← hc]
    exact List.getLast?_concat _
  cases hcomps : t.comps with
  | nil => rw [hcomps] at hlast; simp at hlast
  | cons x xs =>
    rw [hcomps] at hlast
    rw [List.getLast?_eq_getLast _ (by simp)] at hlast
    have h2 := Option.some.inj hlast
    have hgd : (x :: xs).getLastD "" = (x :: xs).getLast (by simp) := by
      rw [List.getLastD_eq_getLast?, List.getLast?_eq_getLast _ (by simp)]
      rfl
    rw [hgd] at h2
    have hlen := congrArg String.length h2
    rw [String.length_append] at hlen
    have hb : (".bak" : String).length = 4 := rfl
    omega

/-! ## Symlink loop lemmas -/

theorem isFileReal_of_file (fs : FS) (p : FPath) (s : String)
    (h : lookupFS fs p = some (FNode.file s)) : isFileReal fs p = true := by
  simp [isFileReal, resolvePath, h]

theorem isFileReal_lookup_nonnone (fs : FS) (p : FPath)
    (h : isFileReal fs p = true) : lookupFS fs p ≠ none := by
  intro hnone
  simp [isFileReal, resolvePath, hnone] at h

theorem pyRename_ok_preserve (fs : FS) (old new : FPath) (fs' : FS)
    (q : FPath) (hok : pyRename fs old new = Except.ok fs')
    (h1 : q ≠ old) (h2 : q ≠ new) :
    lookupFS fs' q = lookupFS fs q := by
  unfold pyRename at hok
  split at hok
  · simp at hok
  · split at hok
    · simp at hok
    · cases hok
      rw [lookup_setNode, if_neg (Ne.symm h2),
        lookup_erase_ne _ _ _ (Ne.symm h1)]

theorem pyRename_ok_new (fs : FS) (old new : FPath) (fs' : FS)
    (hok : pyRename fs old new = Except.ok fs') :
    lookupFS fs' new = lookupFS fs old := by
  unfold pyRename at hok
  split at hok
  · simp at hok
  · split at hok
    · simp at hok
    · rename_i n hn
      cases hok
      rw [lookup_setNode, if_pos rfl, hn]

theorem mkdirChain_ok_preserve_some (L : List FPath) :
    ∀ (fs fs' : FS) (q : FPath) (n : FNode),
      mkdirChain fs L = (fs', none) → lookupFS fs q = some n →
      lookupFS fs' q = some n := by
  induction L with
  | nil =>
    intro fs fs' q n hok h
    simp only [mkdirChain, Prod.mk.injEq] at hok
    rw [← hok.1]
    exact h
  | cons a rest ih =>
    intro fs fs' q n hok h
    cases ha : lookupFS fs a with
    | none =>
      simp only [mkdirChain, ha] at hok
      apply ih _ _ _ _ hok
      rw [lookup_setNode]
      by_cases haq : a = q
      · subst haq
        rw [ha] at h
        cases h
      · rw [if_neg haq]
        exact h
    | some n2 =>
      cases hr : resolveNode fs n2 with
      | none => simp [mkdirChain, ha, hr] at hok
      | some n3 =>
        cases n3 with
        | dir =>
          simp only [mkdirChain, ha, hr] at hok
          exact ih _ _ _ _ hok h
        | file s => simp [mkdirChain, ha, hr] at hok
        | link d => simp [mkdirChain, ha, hr] at hok

theorem mkdirChain_ok_preserve_nonnone (L : List FPath) :
    ∀ (fs fs' : FS) (q : FPath),
      mkdirChain fs L = (fs', none) → lookupFS fs q ≠ none →
      lookupFS fs' q ≠ none := by
  intro fs fs' q hok h
  cases hl : lookupFS fs q with
  | none => exact absurd hl h
  | some n =>
    rw [mkdirChain_ok_preserve_some L fs fs' q n hok hl]
    simp

theorem mkdirChain_ok_mem_nonnone (L : List FPath) :
    ∀ (fs fs' : FS) (q : FPath),
      mkdirChain fs L = (fs', none) → q ∈ L →
      lookupFS fs' q ≠ none := by
  induction L with
  | nil => intro fs fs' q _ hq; simp at hq
  | cons a rest ih =>
    intro fs fs' q hok hq
    rcases List.mem_cons.mp hq with he | hm
    · subst he
      cases ha : lookupFS fs q with
      | none =>
        simp only [mkdirChain, ha] at hok
        apply mkdirChain_ok_preserve_nonnone rest _ _ _ hok
        rw [lookup_setNode, if_pos rfl]
        simp
      | some n2 =>
        cases hr : resolveNode fs n2 with
        | none => simp [mkdirChain, ha, hr] at hok
        | some n3 =>
          cases n3 with
          | dir =>
            simp only [mkdirChain, ha, hr] at hok
            apply mkdirChain_ok_preserve_nonnone rest _ _ _ hok
            rw [ha]
            simp
          | file s => simp [mkdirChain, ha, hr] at hok
          | link d => simp [mkdirChain, ha, hr] at hok
    · cases ha : lookupFS fs a with
      | none =>
        simp only [mkdirChain, ha] at hok
        exact ih _ _ _ hok hm
      | some n2 =>
        cases hr : resolveNode fs n2 with
        | none => simp [mkdirChain, ha, hr] at hok
        | some n3 =>
          cases n3 with
          | dir =>
            simp only [mkdirChain, ha, hr] at hok
            exact ih _ _ _ hok hm
          | file s => simp [mkdirChain, ha, hr] at hok
          | link d => simp [mkdirChain, ha, hr] at hok

theorem pySymlinkTo_ok (fs : FS) (t c : FPath) (fs' : FS)
    (hok : pySymlinkTo fs t c = Except.ok fs') :
    fs' = setNode fs t (FNode.link c) := by
  unfold pySymlinkTo at hok
  split at hok
  · simp at hok
  · cases hok
    rfl

theorem symlinkIter_ok_link (fs : FS) (pr : FPath × FPath) (fs' : FS)
    (hok : symlinkIter fs pr = (fs', none)) :
    lookupFS fs' pr.2 = some (FNode.link pr.1) := by
  unfold symlinkIter at hok
  split at hok
  · simp at hok
  · rename_i fs1 hstep1
    split at hok
    · simp at hok
    · rename_i fs2 hmk
      split at hok
      · simp at hok
      · rename_i fs3 hs3
        injection hok with hfs _
        subst hfs
        rw [pySymlinkTo_ok _ _ _ _ hs3, lookup_setNode, if_pos rfl]

theorem symlinkIter_ok_preserve_some (fs : FS) (pr : FPath × FPath)
    (fs' : FS) (q : FPath) (n : FNode)
    (hok : symlinkIter fs pr = (fs', none))
    (h1 : q ≠ pr.2) (h2 : q ≠ bakPath pr.2)
    (h : lookupFS fs q = some n) : lookupFS fs' q = some n := by
  unfold symlinkIter at hok
  split at hok
  · simp at hok
  · rename_i fs1 hstep1
    have hfs1 : lookupFS fs1 q = some n := by
      by_cases hf : isFileReal fs pr.2
      · rw [if_pos hf] at hstep1
        rw [pyRename_ok_preserve _ _ _ _ _ hstep1 h1 h2]
        exact h
      · rw [if_neg hf] at hstep1
        cases hstep1
        exact h
    split at hok
    · simp at hok
    · rename_i fs2 hmk
      have hfs2 : lookupFS fs2 q = some n :=
        mkdirChain_ok_preserve_some _ _ _ _ _ hmk hfs1
      split at hok
      · simp at hok
      · rename_i fs3 hs3
        injection hok with hfs _
        subst hfs
        rw [pySymlinkTo_ok _ _ _ _ hs3, lookup_setNode,
          if_neg (Ne.symm h1)]
        exact hfs2

theorem symlinkIter_ok_preserve_nonnone (fs : FS) (pr : FPath × FPath)
    (fs' : FS) (q : FPath)
    (hok : symlinkIter fs pr = (fs', none))
    (h : lookupFS fs q ≠ none) : lookupFS fs' q ≠ none := by
  by_cases hq : pr.2 = q
  · rw [← hq, symlinkIter_ok_link _ _ _ hok]
    simp
  · unfold symlinkIter at hok
    split at hok
    · simp at hok
    · rename_i fs1 hstep1
      have hfs1 : lookupFS fs1 q ≠ none := by
        by_cases hf : isFileReal fs pr.2
        · rw [if_pos hf] at hstep1
          by_cases hqb : q = bakPath pr.2
          · subst hqb
            rw [pyRename_ok_new _ _ _ _ hstep1]
            exact isFileReal_lookup_nonnone fs pr.2 hf
          · rw [pyRename_ok_preserve _ _ _ _ _ hstep1
              (fun he => hq he.symm) hqb]
            exact h
        · rw [if_neg hf] at hstep1
          cases hstep1
          exact h
      split at hok
      · simp at hok
      · rename_i fs2 hmk
        have hfs2 : lookupFS fs2 q ≠ none :=
          mkdirChain_ok_preserve_nonnone _ _ _ _ hmk hfs1
        split at hok
        · simp at hok
        · rename_i fs3 hs3
          injection hok with hfs _
          subst hfs
          rw [pySymlinkTo_ok _ _ _ _ hs3, lookup_setNode, if_neg hq]
          exact hfs2

theorem symlinkIter_ok_bak (fs : FS) (pr : FPath × FPath) (fs' : FS)
    (s : String) (hok : symlinkIter fs pr = (fs', none))
    (h : lookupFS fs pr.2 = some (FNode.file s)) :
    lookupFS fs' (bakPath pr.2) = some (FNode.file s) := by
  have hf : isFileReal fs pr.2 = true := isFileReal_of_file fs pr.2 s h
  unfold symlinkIter at hok
  rw [if_pos hf] at hok
  split at hok
  · simp at hok
  · rename_i fs1 hstep1
    have hfs1 : lookupFS fs1 (bakPath pr.2) = some (FNode.file s) := by
      rw [pyRename_ok_new _ _ _ _ hstep1, h]
    split at hok
    · simp at hok
    · rename_i fs2 hmk
      have hfs2 : lookupFS fs2 (bakPath pr.2) = some (FNode.file s) :=
        mkdirChain_ok_preserve_some _ _ _ _ _ hmk hfs1
      split at hok
      · simp at hok
      · rename_i fs3 hs3
        injection hok with hfs _
        subst hfs
        rw [pySymlinkTo_ok _ _ _ _ hs3, lookup_setNode,
          if_neg (fun he => bak_ne pr.2 he.symm)]
        exact hfs2

theorem symlinkIter_ok_ancestors (fs : FS) (pr : FPath × FPath) (fs' : FS)
    (hok : symlinkIter fs pr = (fs', none)) :
    ∀ anc ∈ ancestors pr.2, lookupFS fs' anc ≠ none := by
  intro anc ha
  unfold symlinkIter at hok
  split at hok
  · simp at hok
  · rename_i fs1 hstep1
    split at hok
    · simp at hok
    · rename_i fs2 hmk
      split at hok
      · simp at hok
      · rename_i fs3 hs3
        injection hok with hfs _
        subst hfs
        rw [pySymlinkTo_ok _ _ _ _ hs3, lookup_setNode]
        by_cases he : pr.2 = anc
        · rw [if_pos he]
          simp
        · rw [if_neg he]
          exact mkdirChain_ok_mem_nonnone _ _ _ _ hmk ha

theorem symlinkLoop_ok_preserve_some (L : List (FPath × FPath)) :
    ∀ (fs : FS) (led : Ledger) (evs : List Event) (q : FPath) (n : FNode),
      (symlinkLoop L fs led evs).2.2.2 = none →
      (∀ x ∈ L, q ≠ x.2 ∧ q ≠ bakPath x.2) →
      lookupFS fs q = some n →
      lookupFS (symlinkLoop L fs led evs).1 q = some n := by
  induction L with
  | nil => intro fs led evs q n _ _ h; exact h
  | cons pr rest ih =>
    intro fs led evs q n hsucc hq h
    rcases hiter : symlinkIter fs pr with ⟨fs2, eOpt⟩
    cases eOpt with
    | some e => simp [symlinkLoop, hiter] at hsucc
    | none =>
      simp only [symlinkLoop, hiter] at hsucc ⊢
      obtain ⟨hq1, hq2⟩ := hq pr (List.mem_cons_self pr rest)
      exact ih fs2 _ _ q n hsucc
        (fun x hx => hq x (List.mem_cons_of_mem pr hx))
        (symlinkIter_ok_preserve_some fs pr fs2 q n hiter hq1 hq2 h)

theorem symlinkLoop_ok_preserve_nonnone (L : List (FPath × FPath)) :
    ∀ (fs : FS) (led : Ledger) (evs : List Event) (q : FPath),
      (symlinkLoop L fs led evs).2.2.2 = none →
      lookupFS fs q ≠ none →
      lookupFS (symlinkLoop L fs led evs).1 q ≠ none := by
  induction L with
  | nil => intro fs led evs q _ h; exact h
  | cons pr rest ih =>
    intro fs led evs q hsucc h
    rcases hiter : symlinkIter fs pr with ⟨fs2, eOpt⟩
    cases eOpt with
    | some e => simp [symlinkLoop, hiter] at hsucc
    | none =>
      simp only [symlinkLoop, hiter] at hsucc ⊢
      exact ih fs2 _ _ q hsucc
        (symlinkIter_ok_preserve_nonnone fs pr fs2 q hiter h)

theorem symlinkLoop_spec (L : List (FPath × FPath)) :
    ∀ (fs : FS) (led : Ledger) (evs : List Event),
      (symlinkLoop L fs led evs).2.2.2 = none →
      (L.map Prod.snd).Nodup →
      (∀ x ∈ L, ∀ y ∈ L, bakPath x.2 ≠ y.2) →
      (∀ x ∈ L, ∀ y ∈ L, x.2 ≠ y.2 → bakPath x.2 ≠ bakPath y.2) →
      ∀ pr ∈ L,
        lookupFS (symlinkLoop L fs led evs).1 pr.2 =
          some (FNode.link pr.1) ∧
        (∀ s, lookupFS fs pr.2 = some (FNode.file s) →
          lookupFS (symlinkLoop L fs led evs).1 (bakPath pr.2) =
            some (FNode.file s)) ∧
        (∀ anc ∈ ancestors pr.2,
          lookupFS (symlinkLoop L fs led evs).1 anc ≠ none) := by
  induction L with
  | nil => intro fs led evs _ _ _ _ pr hpr; simp at hpr
  | cons hd tl ih =>
    intro fs led evs hsucc hnd h2 h3 pr hpr
    have hndc : hd.2 ∉ tl.map Prod.snd ∧ (tl.map Prod.snd).Nodup := by
      rw [List.map_cons] at hnd
      exact List.nodup_cons.mp hnd
    rcases hiter : symlinkIter fs hd with ⟨fs2, eOpt⟩
    cases eOpt with
    | some e => simp [symlinkLoop, hiter] at hsucc
    | none =>
      simp only [symlinkLoop, hiter] at hsucc ⊢
      rcases List.mem_cons.mp hpr with he | hm
      · subst he
        refine ⟨?_, ?_, ?_⟩
        · apply symlinkLoop_ok_preserve_some tl _ _ _ _ _ hsucc ?_
            (symlinkIter_ok_link fs pr fs2 hiter)
          intro x hx
          refine ⟨?_, ?_⟩
          · intro he2
            exact hndc.1 (he2 ▸ List.mem_map_of_mem Prod.snd hx)
          · intro he2
            exact h2 x (List.mem_cons_of_mem pr hx) pr
              (List.mem_cons_self pr tl) he2.symm
        · intro s hs
          apply symlinkLoop_ok_preserve_some tl _ _ _ _ _ hsucc ?_
            (symlinkIter_ok_bak fs pr fs2 s hiter hs)
          intro x hx
          refine ⟨?_, ?_⟩
          · exact h2 pr (List.mem_cons_self pr tl) x
              (List.mem_cons_of_mem pr hx)
          · intro he2
            have hxne : pr.2 ≠ x.2 := by
              intro he3
              exact hndc.1 (he3 ▸ List.mem_map_of_mem Prod.snd hx)
            exact h3 pr (List.mem_cons_self pr tl) x
              (List.mem_cons_of_mem pr hx) hxne he2
        · intro anc ha
          exact symlinkLoop_ok_preserve_nonnone tl _ _ _ _ hsucc
            (symlinkIter_ok_ancestors fs pr fs2 hiter anc ha)
      · have h2t : ∀ x ∈ tl, ∀ y ∈ tl, bakPath x.2 ≠ y.2 :=
          fun x hx y hy => h2 x (List.mem_cons_of_mem hd hx) y
            (List.mem_cons_of_mem hd hy)
        have h3t : ∀ x ∈ tl, ∀ y ∈ tl, x.2 ≠ y.2 →
            bakPath x.2 ≠ bakPath y.2 :=
          fun x hx y hy => h3 x (List.mem_cons_of_mem hd hx) y
            (List.mem_cons_of_mem hd hy)
        have IH := ih fs2 _ _ hsucc hndc.2 h2t h3t pr hm
        refine ⟨IH.1, ?_, IH.2.2⟩
        intro s hs
        apply IH.2.1
        have hne1 : pr.2 ≠ hd.2 := by
          intro he3
          exact hndc.1 (he3 ▸ List.mem_map_of_mem Prod.snd hm)
        have hne2 : pr.2 ≠ bakPath hd.2 := by
          intro he3
          exact h2 hd (List.mem_cons_self hd tl) pr hpr he3.symm
        exact symlinkIter_ok_preserve_some fs hd fs2 pr.2 _ hiter hne1
          hne2 hs

/-- C7: for every non-null Symlink action whose `execute()` call returns
the resolved links without raising — the loop checks `is_file()`
(following symlinks), renames an existing regular file aside, creates
missing parent directories and places the symlink, and any
`FileExistsError` or mkdir failure would propagate instead — and
provided the resolved targets are pairwise distinct and backup names do
not collide, as the operating system guarantees: the final filesystem
has a symlink to the content file at each target path, any regular file
previously at a target now sits at the `.bak`-suffixed path, and every
ancestor directory of each target exists. -/
theorem symlink_backs_up_existing_targets (ext : Externals)
    (a : SymlinkAction) (w : World) (links : List (FPath × FPath))
    (h0 : a.null_object = false)
    (hok : (SymlinkAction.execute ext a w).result = Except.ok links)
    (hnd : (links.map Prod.snd).Nodup)
    (h2 : ∀ x ∈ links, ∀ y ∈ links, bakPath x.2 ≠ y.2)
    (h3 : ∀ x ∈ links, ∀ y ∈ links, x.2 ≠ y.2 →
      bakPath x.2 ≠ bakPath y.2) :
    ∀ pr ∈ links,
      lookupFS (SymlinkAction.execute ext a w).world.fs pr.2 =
        some (FNode.link pr.1) ∧
      (∀ s, lookupFS w.fs pr.2 = some (FNode.file s) →
        lookupFS (SymlinkAction.execute ext a w).world.fs (bakPath pr.2) =
          some (FNode.file s)) ∧
      (∀ anc ∈ ancestors pr.2,
        lookupFS (SymlinkAction.execute ext a w).world.fs anc ≠ none) := by
  simp only [SymlinkAction.execute, h0, Bool.false_eq_true, if_false]
    at hok ⊢
  split at hok
  · rename_i hr
    cases hok
    exact symlinkLoop_spec _ w.fs a.symlinked_files [] hr hnd h2 h3
  · simp at hok

/-- C7 witness: symlinking `/c` onto `/t` where `/t` already holds the
regular file contents `old` succeeds, leaving a symlink at `/t` and the
old file at `/t.bak`. -/
theorem symlink_backs_up_existing_targets_witness :
    symlinkC7.null_object = false ∧
    lookupFS (SymlinkAction.execute ext0 symlinkC7 wC7).world.fs
      ⟨true, ["t"]⟩ = some (FNode.link ⟨true, ["c"]⟩) ∧
    lookupFS (SymlinkAction.execute ext0 symlinkC7 wC7).world.fs
      (bakPath ⟨true, ["t"]⟩) = some (FNode.file "old") := by
  have h := symlink_backs_up_existing_targets ext0 symlinkC7 wC7
    [(⟨true, ["c"]⟩, ⟨true, ["t"]⟩)] rfl rfl (by decide) (by decide)
    (by decide)
  obtain ⟨ha, hb, _⟩ :=
    h (⟨true, ["c"]⟩, ⟨true, ["t"]⟩) (List.mem_singleton.mpr rfl)
  exact ⟨rfl, ha, hb "old" (by decide)⟩

/-- The error path of the symlink loop is real: when the target persists
as a directory — `is_file()` is false, so it is not renamed aside —
`symlink_to` raises `FileExistsError`; the error propagates out of
`execute()`, no link is created and no ledger entry is recorded. -/
theorem symlink_execute_raises_on_persisting_target :
    (SymlinkAction.execute ext0 symlinkC7 wC7dir).result =
      Except.error PyErr.fileExistsError ∧
    lookupFS (SymlinkAction.execute ext0 symlinkC7 wC7dir).world.fs
      ⟨true, ["t"]⟩ = some FNode.dir ∧
    (SymlinkAction.execute ext0 symlinkC7 wC7dir).events = [] ∧
    (SymlinkAction.execute ext0 symlinkC7 wC7dir).action.symlinked_files =
      [] :=
  ⟨rfl, rfl, rfl, rfl⟩

/-! ## Missing compile content -/

/-- C6: a non-null Compile action whose resolved content path does not
exist logs an error and returns an empty mapping without raising, leaving
its idempotency ledger unchanged.  When no target option is given, the
process-scoped temporary file is created first (the freshness of that
file, guaranteed by the operating system, is the second hypothesis of the
no-target part). -/
theorem compile_missing_content_logs_and_skips (ext : Externals)
    (a : CompileAction) (w : World) (cs : String)
    (h0 : a.null_object = false)
    (hc : a.options.content = some cs)
    (hmiss : lookupFS w.fs
      (expand_path a.directory (strToFPath (a.replacer cs))) = none) :
    (∀ ts, a.options.target = some ts →
      (CompileAction.execute ext a w).result = [] ∧
      (CompileAction.execute ext a w).action.performed_compilations =
        a.performed_compilations ∧
      ∃ msg, Event.errorLogged msg ∈ (CompileAction.execute ext a w).events) ∧
    (a.options.target = none →
      expand_path a.directory (strToFPath (a.replacer cs)) ≠
        (createTempFile w ((expand_path a.directory
          (strToFPath (a.replacer cs))).comps.getLastD "")).1 →
      (CompileAction.execute ext a w).result = [] ∧
      (CompileAction.execute ext a w).action.performed_compilations =
        a.performed_compilations ∧
      ∃ msg, Event.errorLogged msg ∈ (CompileAction.execute ext a w).events) := by
  constructor
  · intro ts ht
    simp only [CompileAction.execute, h0, Bool.false_eq_true, if_false,
      ht, hc, optPathOf, hmiss]
    refine ⟨rfl, rfl, ?_⟩
    exact ⟨_, List.Mem.head _⟩
  · intro ht hfresh
    simp only [CompileAction.execute, h0, Bool.false_eq_true, if_false,
      ht, hc, optPathOf]
    have hlk : lookupFS
        (setNode w.fs (createTempFile w ((expand_path a.directory
          (strToFPath (a.replacer cs))).comps.getLastD "")).1
          (FNode.file ""))
        (expand_path a.directory (strToFPath (a.replacer cs))) = none := by
      rw [lookup_setNode, if_neg (fun he => hfresh he.symm)]
      exact hmiss
    simp only [createTempFile] at hlk ⊢
    simp only [hlk]
    refine ⟨rfl, rfl, ?_⟩
    exact ⟨_, List.Mem.tail _ (List.Mem.head _)⟩

/-- C6 witness: compiling the non-existent `/missing.template`, with and
without a target option, returns an empty mapping, leaves the ledger
unchanged and logs an error. -/
theorem compile_missing_content_logs_and_skips_witness :
    ((CompileAction.execute ext0 compileC6 wEmpty).result = [] ∧
      (CompileAction.execute ext0 compileC6 wEmpty).action.performed_compilations =
        compileC6.performed_compilations ∧
      ∃ msg, Event.errorLogged msg ∈
        (CompileAction.execute ext0 compileC6 wEmpty).events) ∧
    ((CompileAction.execute ext0 compileC6b wEmpty).result = [] ∧
      (CompileAction.execute ext0 compileC6b wEmpty).action.performed_compilations =
        compileC6b.performed_compilations ∧
      ∃ msg, Event.errorLogged msg ∈
        (CompileAction.execute ext0 compileC6b wEmpty).events) := by
  constructor
  · exact (compile_missing_content_logs_and_skips ext0 compileC6 wEmpty
      "/missing.template" rfl rfl rfl).1 "/t" rfl
  · exact (compile_missing_content_logs_and_skips ext0 compileC6b wEmpty
      "/missing.template" rfl rfl rfl).2 rfl (by decide)

/-! ## Compile ownership predicate -/

theorem expand_abs (dir p : FPath) (h : dir.abs = true) :
    (expand_path dir p).abs = true := by
  unfold expand_path
  by_cases hp : p.abs
  · rw [if_pos hp]; exact hp
  · rw [if_neg hp]; exact h

theorem ledgerAdd_hasKey_self (L : Ledger) (c t : FPath) :
    ledgerHasKey (ledgerAdd L c t) c = true := by
  induction L with
  | nil => simp [ledgerAdd, ledgerHasKey]
  | cons e rest ih =>
    obtain ⟨c2, ts⟩ := e
    by_cases h : c2 = c
    · simp [ledgerAdd, h, ledgerHasKey]
    · simp only [ledgerAdd, if_neg h, ledgerHasKey, List.any_cons]
      simp only [ledgerHasKey] at ih
      simp [h, ih]

/-- C8 (amended): after an `execute()` call of a non-null Compile action
whose content option resolves to a single existing file `X`, the ownership
predicate holds for `X`; and for every absolute path absent from the
ledger — in particular every path never processed by any `execute()` call
of the instance — the predicate answers false.  (When content is a
directory the predicate is false even for processed files under it; see
the counterexample.) -/
theorem compile_ownership_predicate (ext : Externals) (a : CompileAction)
    (w : World) (cs ts txt : String)
    (h0 : a.null_object = false)
    (hdir : a.directory.abs = true)
    (hc : a.options.content = some cs)
    (ht : a.options.target = some ts)
    (hfile : lookupFS w.fs
      (expand_path a.directory (strToFPath (a.replacer cs))) =
      some (FNode.file txt)) :
    (CompileAction.execute ext a w).result =
      [(expand_path a.directory (strToFPath (a.replacer cs)),
        expand_path a.directory (strToFPath (a.replacer ts)))] ∧
    CompileAction.contains (CompileAction.execute ext a w).action
      (expand_path a.directory (strToFPath (a.replacer cs))) =
      Except.ok true ∧
    (∀ p : FPath, p.abs = true →
      ledgerHasKey
        (CompileAction.execute ext a w).action.performed_compilations p =
        false →
      CompileAction.contains (CompileAction.execute ext a w).action p =
        Except.ok false) := by
  have habs := expand_abs a.directory (strToFPath (a.replacer cs)) hdir
  refine ⟨?_, ?_, ?_⟩
  · simp [CompileAction.execute, h0, ht, hc, optPathOf, hfile,
      resolve_targets]
  · simp [CompileAction.execute, h0, ht, hc, optPathOf, hfile,
      resolve_targets, CompileAction.contains, habs, ledgerAdd_hasKey_self]
  · intro p hp hkey
    simp [CompileAction.execute, h0, ht, hc, optPathOf, hfile,
      resolve_targets] at hkey
    by_cases hxp : expand_path a.directory (strToFPath (a.replacer cs)) = p
    · rw [hxp] at hkey hfile
      simp [CompileAction.execute, h0, ht, hc, optPathOf, hfile,
        resolve_targets, CompileAction.contains, hp, hxp, hkey]
    · simp [CompileAction.execute, h0, ht, hc, optPathOf, hfile,
        resolve_targets, CompileAction.contains, hp, hxp]

/-- C8 counterexample: compiling the content directory `/c` resolves the
content file `/c/f` to `/t/f` and records it in the ledger, yet the
ownership predicate on `/c/f` answers false, because `__contains__`
compares the query against the content option `/c` itself. -/
theorem compile_contains_false_for_directory_content_cx :
    (CompileAction.execute ext0 compileC8 wC8).result =
      [(⟨true, ["c", "f"]⟩, ⟨true, ["t", "f"]⟩)] ∧
    ledgerHasKey
      (CompileAction.execute ext0 compileC8 wC8).action.performed_compilations
      ⟨true, ["c", "f"]⟩ = true ∧
    CompileAction.contains (CompileAction.execute ext0 compileC8 wC8).action
      ⟨true, ["c", "f"]⟩ = Except.ok false := by
  refine ⟨by decide, by decide, rfl⟩

/-- C8 witness: for the single content file `/tpl`, the predicate is true
after execution, and false on ledger-absent absolute paths. -/
theorem compile_ownership_predicate_witness :
    (CompileAction.execute ext0 compileC8w wC8w).result =
      [(⟨true, ["tpl"]⟩, ⟨true, ["t"]⟩)] ∧
    CompileAction.contains (CompileAction.execute ext0 compileC8w wC8w).action
      ⟨true, ["tpl"]⟩ = Except.ok true ∧
    CompileAction.contains (CompileAction.execute ext0 compileC8w wC8w).action
      ⟨true, ["elsewhere"]⟩ = Except.ok false := by
  have h := compile_ownership_predicate ext0 compileC8w wC8w "/tpl" "/t" "x"
    rfl rfl rfl rfl (by decide)
  refine ⟨?_, ?_, ?_⟩
  · have := h.1
    simpa using this
  · have := h.2.1
    simpa using this
  · exact h.2.2 ⟨true, ["elsewhere"]⟩ rfl (by decide)

/-! ## Stow composite -/

/-- C3 counterexample: a Stow action over `/c` (one template, one
non-template, `non_templates: copy`) emits its copy event strictly before
its compile event: the complement sub-action executes first, not the
Compile sub-action as claimed. -/
theorem stow_compile_not_first_cx :
    stowC3.null_object = false ∧
    (StowAction.execute ext0 stowC3 wC3).events.any isCompiledEv = true ∧
    (StowAction.execute ext0 stowC3 wC3).events.any isCopiedEv = true ∧
    occursBefore isCopiedEv isCompiledEv
      (StowAction.execute ext0 stowC3 wC3).events = true ∧
    occursBefore isCompiledEv isCopiedEv
      (StowAction.execute ext0 stowC3 wC3).events = false := by
  refine ⟨by decide, by decide, by decide, by decide, by decide⟩

/-- C3 (amended): a non-null Stow action with a valid non-ignore
`non_templates` mode constructs a Compile sub-action whose include pattern
is the `templates` pattern (default `template\.(.+)`) and a complement
Copy-or-Symlink sub-action whose include pattern is the negation
`(?!pattern).+` (for the default, `(?!template\..+).+`); `execute()` runs
the complement sub-action FIRST on the incoming world, then the Compile
sub-action on the resulting world, and returns the compile dictionary
updated with the complement dictionary (complement entries winning on key
collision); an exception raised by the complement sub-action propagates
before the Compile sub-action runs. -/
theorem stow_execute_order_and_merge (ext : Externals) (opts : StowDict)
    (dir : FPath) (rep : Replacer) (cs ts : String)
    (hc : opts.content = some cs) (ht : opts.target = some ts)
    (hmode :
      strLower ((optStrOf ext rep opts.non_templates
        (some "symlink")).getD "symlink") = "copy" ∨
      strLower ((optStrOf ext rep opts.non_templates
        (some "symlink")).getD "symlink") = "symlink") :
    ∃ A : StowAction,
      mkStowAction ext opts dir rep = Except.ok (A, []) ∧
      A.null_object = false ∧
      A.ignore_non_templates = false ∧
      ∃ ca nta, A.compile_action = some ca ∧
        A.non_templates_action = some nta ∧
        ca.options = { content := some cs
                       target := some ts
                       include_pat := some (opts.templates.getD "template\\.(.+)")
                       permissions := opts.permissions } ∧
        ntaInclude nta = some (match opts.templates with
          | some t => "(?!" ++ t ++ ").+"
          | none => "(?!template\\..+).+") ∧
        (∀ (w : World) (e : PyErr),
          (NTAction.execute ext nta w).result = Except.error e →
          StowAction.execute ext A w =
            ⟨{ A with non_templates_action := some (NTAction.execute ext nta w).action },
              (NTAction.execute ext nta w).world,
              (NTAction.execute ext nta w).events,
              Except.error e⟩) ∧
        (∀ (w : World) (copies : List (FPath × FPath)),
          (NTAction.execute ext nta w).result = Except.ok copies →
          StowAction.execute ext A w =
            ⟨{ A with
                non_templates_action := some (NTAction.execute ext nta w).action
                compile_action := some (CompileAction.execute ext ca
                  (NTAction.execute ext nta w).world).action },
              (CompileAction.execute ext ca
                (NTAction.execute ext nta w).world).world,
              (NTAction.execute ext nta w).events ++
                (CompileAction.execute ext ca
                  (NTAction.execute ext nta w).world).events,
              Except.ok (dictUpdate
                (CompileAction.execute ext ca
                  (NTAction.execute ext nta w).world).result
                copies)⟩) := by
  have hne : opts.isEmpty = false := by
    simp [StowDict.isEmpty, hc]
  rcases hmode with hm | hm
  · refine ⟨⟨false, opts, dir, rep,
      some (mkCompileAction { content := some cs
                              target := some ts
                              include_pat := some (opts.templates.getD "template\\.(.+)")
                              permissions := opts.permissions } dir rep), false,
      some (NTAction.copyA (mkCopyAction
        { content := some cs
          target := some ts
          include_pat := some (match opts.templates with
            | some t => "(?!" ++ t ++ ").+"
            | none => "(?!template\\..+).+")
          permissions := opts.permissions } dir rep))⟩,
      ?_, rfl, rfl, ?_⟩
    · simp +decide [mkStowAction, hne, hc, ht, hm]
    · refine ⟨_, _, rfl, rfl, rfl, rfl, ?_, ?_⟩
      · intro w e h
        exact absurd h (by simp [NTAction.execute])
      · intro w copies h
        simp only [StowAction.execute, Bool.false_eq_true, if_false, h]
  · refine ⟨⟨false, opts, dir, rep,
      some (mkCompileAction { content := some cs
                              target := some ts
                              include_pat := some (opts.templates.getD "template\\.(.+)")
                              permissions := opts.permissions } dir rep), false,
      some (NTAction.symlinkA (mkSymlinkAction
        { content := some cs
          target := some ts
          include_pat := some (match opts.templates with
            | some t => "(?!" ++ t ++ ").+"
            | none => "(?!template\\..+).+")
          permissions := opts.permissions } dir rep))⟩,
      ?_, rfl, rfl, ?_⟩
    · simp +decide [mkStowAction, hne, hc, ht, hm]
    · refine ⟨_, _, rfl, rfl, rfl, rfl, ?_, ?_⟩
      · intro w e h
        simp only [StowAction.execute, Bool.false_eq_true, if_false, h]
      · intro w copies h
        simp only [StowAction.execute, Bool.false_eq_true, if_false, h]

/-- C3 witness: the concrete Stow action over `/c` with mode copy is
constructed without error and is non-null, and its execution decomposes as
stated. -/
theorem stow_execute_order_and_merge_witness :
    ∃ A : StowAction,
      mkStowAction ext0 stowDictC3 dirRoot sid = Except.ok (A, []) ∧
      A.null_object = false ∧ A.ignore_non_templates = false := by
  obtain ⟨A, h1, h2, h3, _⟩ := stow_execute_order_and_merge ext0 stowDictC3
    dirRoot sid "/c" "/t" rfl rfl (Or.inl (by decide))
  exact ⟨A, h1, h2, h3⟩

/-- C9: a Stow action whose (lower-cased) `non_templates` mode is not one
of copy/symlink/ignore logs the invalid value and degrades to the ignore
behaviour: the complement sub-action is never constructed and `execute()`
runs only the Compile sub-action. -/
theorem stow_invalid_non_templates_degrades (ext : Externals)
    (opts : StowDict) (dir : FPath) (rep : Replacer) (cs ts : String)
    (hc : opts.content = some cs) (ht : opts.target = some ts)
    (h1 : strLower ((optStrOf ext rep opts.non_templates
      (some "symlink")).getD "symlink") ≠ "copy")
    (h2 : strLower ((optStrOf ext rep opts.non_templates
      (some "symlink")).getD "symlink") ≠ "symlink")
    (h3 : strLower ((optStrOf ext rep opts.non_templates
      (some "symlink")).getD "symlink") ≠ "ignore") :
    ∃ A : StowAction,
      mkStowAction ext opts dir rep = Except.ok (A,
        [Event.errorLogged ("Invalid stow non_templates parameter:\"" ++
          ((optStrOf ext rep opts.non_templates
            (some "symlink")).getD "symlink") ++
          "\". Should be one of \"symlink\", \"copy\", or \"ignore\"!")]) ∧
      A.null_object = false ∧
      A.ignore_non_templates = true ∧
      A.non_templates_action = none ∧
      ∃ ca, A.compile_action = some ca ∧
        ca.options.include_pat =
          some (opts.templates.getD "template\\.(.+)") ∧
        (∀ w : World, StowAction.execute ext A w =
          ⟨{ A with compile_action := some (CompileAction.execute ext ca w).action },
            (CompileAction.execute ext ca w).world,
            (CompileAction.execute ext ca w).events,
            Except.ok (CompileAction.execute ext ca w).result⟩) := by
  have hne : opts.isEmpty = false := by
    simp [StowDict.isEmpty, hc]
  refine ⟨⟨false, opts, dir, rep,
    some (mkCompileAction { content := some cs
                            target := some ts
                            include_pat := some (opts.templates.getD "template\\.(.+)")
                            permissions := opts.permissions } dir rep),
    true, none⟩, ?_, rfl, rfl, rfl, ?_⟩
  · simp [mkStowAction, hne, hc, ht, h1, h2, h3]
  · exact ⟨_, rfl, rfl, fun w => rfl⟩

/-- C9 witness: the invalid mode `link` is logged and degrades to
ignore. -/
theorem stow_invalid_non_templates_degrades_witness :
    ∃ A : StowAction,
      mkStowAction ext0 stowDictC9 dirRoot sid = Except.ok (A,
        [Event.errorLogged ("Invalid stow non_templates parameter:\"" ++
          "link" ++
          "\". Should be one of \"symlink\", \"copy\", or \"ignore\"!")]) ∧
      A.null_object = false ∧
      A.ignore_non_templates = true ∧
      A.non_templates_action = none := by
  obtain ⟨A, h1, h2, h3, h4, _⟩ := stow_invalid_non_templates_degrades ext0
    stowDictC9 dirRoot sid "/c" "/t" rfl rfl (by decide) (by decide)
    (by decide)
  exact ⟨A, h1, h2, h3, h4⟩

/-- C10 counterexample: with `non_templates: ignore` the attribute
`non_templates_action` IS assigned during construction (a Symlink
complement action), and `managed_files()` returns normally from the
compile ledger instead of raising `AttributeError`. -/
theorem stow_ignore_assigns_non_templates_action_cx :
    stowC10.null_object = false ∧
    stowC10.ignore_non_templates = true ∧
    stowC10.non_templates_action.isSome = true ∧
    StowAction.managedFiles stowC10 = Except.ok [] := by
  refine ⟨rfl, rfl, rfl, rfl⟩

/-- C10 (amended): only for an unrecognized `non_templates` value is
`non_templates_action` left unassigned, making `managed_files()` — and the
membership predicate — raise `AttributeError`, before and after execution;
for `ignore`, the attribute is assigned a Symlink complement action (never
executed) and `managed_files()` answers from the compile ledger. -/
theorem stow_unassigned_attribute_behaviour (ext : Externals)
    (opts : StowDict) (dir : FPath) (rep : Replacer) (cs ts : String)
    (hc : opts.content = some cs) (ht : opts.target = some ts) :
    ((strLower ((optStrOf ext rep opts.non_templates
        (some "symlink")).getD "symlink") ≠ "copy" ∧
      strLower ((optStrOf ext rep opts.non_templates
        (some "symlink")).getD "symlink") ≠ "symlink" ∧
      strLower ((optStrOf ext rep opts.non_templates
        (some "symlink")).getD "symlink") ≠ "ignore") →
      ∃ A evs, mkStowAction ext opts dir rep = Except.ok (A, evs) ∧
        A.non_templates_action = none ∧
        A.managedFiles = Except.error PyErr.attributeError ∧
        (∀ p : FPath, p.abs = true →
          A.contains p = Except.error PyErr.attributeError) ∧
        (∀ w : World,
          (StowAction.execute ext A w).action.non_templates_action = none ∧
          (StowAction.execute ext A w).action.managedFiles =
            Except.error PyErr.attributeError)) ∧
    (strLower ((optStrOf ext rep opts.non_templates
        (some "symlink")).getD "symlink") = "ignore" →
      ∃ A sl, mkStowAction ext opts dir rep = Except.ok (A, []) ∧
        A.non_templates_action = some (NTAction.symlinkA sl) ∧
        A.ignore_non_templates = true ∧
        ∃ ca, A.compile_action = some ca ∧
          A.managedFiles = Except.ok ca.performed_compilations) := by
  have hne : opts.isEmpty = false := by
    simp [StowDict.isEmpty, hc]
  constructor
  · rintro ⟨h1, h2, h3⟩
    refine ⟨⟨false, opts, dir, rep,
      some (mkCompileAction { content := some cs
                              target := some ts
                              include_pat := some (opts.templates.getD "template\\.(.+)")
                              permissions := opts.permissions } dir rep),
      true, none⟩,
      [Event.errorLogged ("Invalid stow non_templates parameter:\"" ++
        ((optStrOf ext rep opts.non_templates
          (some "symlink")).getD "symlink") ++
        "\". Should be one of \"symlink\", \"copy\", or \"ignore\"!")],
      ?_, rfl, rfl, ?_, fun w => ⟨rfl, rfl⟩⟩
    · simp [mkStowAction, hne, hc, ht, h1, h2, h3]
    · intro p hp
      simp [StowAction.contains, hp, StowAction.managedFiles]
  · intro hig
    refine ⟨⟨false, opts, dir, rep,
      some (mkCompileAction { content := some cs
                              target := some ts
                              include_pat := some (opts.templates.getD "template\\.(.+)")
                              permissions := opts.permissions } dir rep),
      true,
      some (NTAction.symlinkA (mkSymlinkAction
        { content := some cs
          target := some ts
          include_pat := some (match opts.templates with
            | some t => "(?!" ++ t ++ ").+"
            | none => "(?!template\\..+).+")
          permissions := opts.permissions } dir rep))⟩,
      _, ?_, rfl, rfl, _, rfl, rfl⟩
    simp +decide [mkStowAction, hne, hc, ht, hig]

/-- C10 witness: both branches at concrete inputs — the invalid mode
`link` raises `AttributeError` from `managed_files()`, while `ignore`
stores a Symlink complement action. -/
theorem stow_unassigned_attribute_behaviour_witness :
    (∃ A evs, mkStowAction ext0 stowDictC9 dirRoot sid =
        Except.ok (A, evs) ∧
      A.non_templates_action = none ∧
      A.managedFiles = Except.error PyErr.attributeError) ∧
    (∃ A sl, mkStowAction ext0 stowDictC10 dirRoot sid =
        Except.ok (A, []) ∧
      A.non_templates_action = some (NTAction.symlinkA sl)) := by
  constructor
  · obtain ⟨A, evs, hmk, hn, hmf, _⟩ :=
      (stow_unassigned_attribute_behaviour ext0 stowDictC9 dirRoot sid
        "/c" "/t" rfl rfl).1 ⟨by decide, by decide, by decide⟩
    exact ⟨A, evs, hmk, hn, hmf⟩
  · obtain ⟨A, sl, hmk, hn, _⟩ :=
      (stow_unassigned_attribute_behaviour ext0 stowDictC10 dirRoot sid
        "/c" "/t" rfl rfl).2 (by decide)
    exact ⟨A, sl, hmk, hn⟩
